import Mathlib

/-!
# goproxy: the interception filter and the configuration reader

A shallow embedding of two files of the repository.

`httpproxy/strip.go`: the two methods of `StripRequestFilter`, `Filter` (the
match test) and `HandleRequest` (the interception protocol).  `Filter` is a
pure function of the filter and the request.  `HandleRequest` is sequential
code that talks to its environment (the response writer, the hijacked
connection, the certificate authority, the TLS library, the listener and the
dialler).  The outcome of every such call is supplied by a `World`; the calls
the code makes are recorded, in program order, in a trace of `Event`s.

`goagent/config.go`: `ReadConfig` with its line loop, the getters of
`GoConfig`, and `ReadConfigFile`: the getter calls that fill the scalar
fields, the `make` calls and the two loops that fill the site tables.  Index
and slice expressions and the getters can panic; they return `Except Panic`.
-/

namespace Goproxy

/-! ## Data model -/

/-- Identity of a raw network connection (`net.Conn`). -/
structure Conn where
  id : Nat
deriving DecidableEq, Repr

/-- A `tls.Certificate`, as handed out by the certificate authority.  Only its
identity matters here. -/
structure Certificate where
  serial : Nat
deriving DecidableEq, Repr

/-- The `tls.ClientAuthType` enumeration of `crypto/tls`, in declaration order. -/
inductive ClientAuthType
  | NoClientCert
  | RequestClientCert
  | RequireAnyClientCert
  | VerifyClientCertIfGiven
  | RequireAndVerifyClientCert
deriving DecidableEq, Repr

/-- The fields of `tls.Config` that `HandleRequest` sets. -/
structure TLSConfig where
  Certificates : List Certificate
  ClientAuth : ClientAuthType
deriving DecidableEq, Repr

/-- The value `tls.Server(conn, config)`: a server-role TLS session over a
raw connection. -/
structure TLSConn where
  conn : Conn
  config : TLSConfig
deriving DecidableEq, Repr

/-- A `*rootca.RootCA` that is not nil.  The type is declared outside this
file of the repository; only its identity matters here. -/
structure RootCA where
  id : Nat
deriving DecidableEq, Repr

/-- The receiver: `StripRequestFilter`.  `CA` is a pointer and may be nil. -/
structure StripRequestFilter where
  CA : Option RootCA
deriving DecidableEq, Repr

/-- The fields of `http.Request` that the filter reads. -/
structure Request where
  Method : String
  Host : String
  Proto : String
  RemoteAddr : String
deriving DecidableEq, Repr

/-- The type `FilterArgs` is declared outside this file of the repository; the
only value built here is the zero value `FilterArgs{}`. -/
structure FilterArgs where
deriving DecidableEq, Repr

/-- An `http.Response`.  `HandleRequest` never builds one. -/
structure Response where
  StatusCode : Int
deriving DecidableEq, Repr

/-- The `http.ResponseWriter` argument: what the type assertion
`rw.(http.Hijacker)` answers. -/
structure ResponseWriter where
  isHijacker : Bool
deriving DecidableEq, Repr

/-- The listener of the handler: whether it implements `PushListener`, and the
string of its address. -/
structure Listener where
  isPushListener : Bool
  Addr : String
deriving DecidableEq, Repr

/-- The fields of `Handler` that `HandleRequest` reads. -/
structure Handler where
  Listener : Listener
deriving DecidableEq, Repr

/-- Either end of an `io.Copy`: a raw connection or a TLS session. -/
inductive Endpoint
  | raw (c : Conn)
  | tls (t : TLSConn)
deriving DecidableEq, Repr

/-- The calls on the environment, as they appear in a trace.  `connRead` and
`connClose` complete the operations of `net.Conn`; `HandleRequest` has no such
call. -/
inductive Event
  | hijack
  | connWrite (c : Conn) (bytes : List Nat)
  | connRead (c : Conn)
  | connClose (c : Conn)
  | log (line : String)
  | issue (ca : Option RootCA) (host : String) (validFor : Int) (rsaBits : Int)
  | tlsServer (t : TLSConn)
  | handshake (t : TLSConn)
  | push (t : TLSConn)
  | dial (network : String) (address : String)
  | goCopy (dst : Endpoint) (src : Endpoint)
deriving DecidableEq, Repr

/-- What the environment answers to each call. -/
structure World where
  /-- Result of `hijacker.Hijack()`: the connection, or an error text. -/
  Hijack : Except String Conn
  /-- Result `(n, err)` of `conn.Write(bytes)`. -/
  Write : Conn → List Nat → Nat × Option String
  /-- Result of `ca.Issue(host, validFor, rsaBits)` on the receiver `ca`. -/
  Issue : Option RootCA → String → Int → Int → Except String Certificate
  /-- Result of `tlsConn.Handshake()`: nil or an error text. -/
  Handshake : TLSConn → Option String
  /-- Result of `net.Dial(network, address)`. -/
  Dial : String → String → Except String Conn

/-- A finished call: the environment calls made, in order, and the returned
pair `(value, err)`. -/
structure Run (α : Type) where
  trace : List Event
  value : Option α
  err : Option String
deriving DecidableEq, Repr

/-! ## Constants -/

/-- The constant `time.Nanosecond`, in nanoseconds. -/
def Nanosecond : Int := 1
/-- The constant `time.Microsecond`. -/
def Microsecond : Int := 1000 * Nanosecond
/-- The constant `time.Millisecond`. -/
def Millisecond : Int := 1000 * Microsecond
/-- The constant `time.Second`. -/
def Second : Int := 1000 * Millisecond
/-- The constant `time.Minute`. -/
def Minute : Int := 60 * Second
/-- The constant `time.Hour`. -/
def Hour : Int := 60 * Minute

/-- The validity passed to `Issue`: the constant expression
`3*365*24*time.Hour`. -/
def validity : Int := 3 * 365 * 24 * Hour

/-- The key size passed to `Issue`. -/
def rsaBits : Int := 2048

/-- The UTF-8 encoding of one character, as a list of byte values. -/
def utf8Bytes (c : Char) : List Nat :=
  let n := c.toNat
  if n < 0x80 then [n]
  else if n < 0x800 then [0xC0 + n / 64, 0x80 + n % 64]
  else if n < 0x10000 then [0xE0 + n / 4096, 0x80 + n / 64 % 64, 0x80 + n % 64]
  else [0xF0 + n / 262144, 0x80 + n / 4096 % 64, 0x80 + n / 64 % 64, 0x80 + n % 64]

/-- The conversion `[]byte(s)`: the UTF-8 bytes of a string. -/
def bytesOf (s : String) : List Nat :=
  s.data.foldr (fun c acc => utf8Bytes c ++ acc) []

/-- The text written to the hijacked connection. -/
def fake200 : String := "HTTP/1.1 200 OK\r\n\r\n"

/-- The line `glog.Infof` formats from the request. -/
def logLine (req : Request) : String :=
  req.RemoteAddr ++ " \"STRIP " ++ req.Method ++ " " ++ req.Host ++ " " ++ req.Proto ++ "\" - -"

/-! ## The two methods -/

/-- The method `StripRequestFilter.Filter`. -/
def Filter (f : StripRequestFilter) (req : Request) : Run FilterArgs :=
  if f.CA = none then
    ⟨[], none, some "StripRequestFilter.CA is nil"⟩
  else if req.Method = "CONNECT" then
    ⟨[], some {}, none⟩
  else
    ⟨[], none, none⟩

/-- The method `StripRequestFilter.HandleRequest`. -/
def HandleRequest (w : World) (f : StripRequestFilter) (h : Handler)
    (_args : Option FilterArgs) (rw : ResponseWriter) (req : Request) : Run Response :=
  if rw.isHijacker = false then
    ⟨[], none, some "http.ResponseWriter does not implments Hijacker"⟩
  else
    match w.Hijack with
    | .error err =>
      ⟨[.hijack], none, some ("http.ResponseWriter Hijack failed: " ++ err)⟩
    | .ok conn =>
      let _written := w.Write conn (bytesOf fake200)
      let t1 : List Event :=
        [.hijack, .connWrite conn (bytesOf fake200), .log (logLine req),
         .issue f.CA req.Host validity rsaBits]
      match w.Issue f.CA req.Host validity rsaBits with
      | .error err =>
        ⟨t1, none, some ("tls.LoadX509KeyPair failed: " ++ err)⟩
      | .ok cert =>
        let tlsConfig : TLSConfig :=
          { Certificates := [cert], ClientAuth := .VerifyClientCertIfGiven }
        let tlsConn : TLSConn := { conn := conn, config := tlsConfig }
        let t2 : List Event := t1 ++ [.tlsServer tlsConn, .handshake tlsConn]
        match w.Handshake tlsConn with
        | some err =>
          ⟨t2, none, some ("tlsConn.Handshake error: " ++ err)⟩
        | none =>
          if h.Listener.isPushListener = true then
            ⟨t2 ++ [.push tlsConn], none, none⟩
          else
            let t3 : List Event := t2 ++ [.dial "tcp" h.Listener.Addr]
            match w.Dial "tcp" h.Listener.Addr with
            | .error err =>
              ⟨t3, none, some ("net.Dial failed: " ++ err)⟩
            | .ok loConn =>
              ⟨t3 ++ [.goCopy (.raw loConn) (.tls tlsConn),
                      .goCopy (.tls tlsConn) (.raw loConn)], none, none⟩

/-! ## Reading a trace -/

/-- The bytes of the fake acceptance, spelled out: `HTTP/1.1 200 OK` CR LF CR LF. -/
def fake200Bytes : List Nat :=
  [72, 84, 84, 80, 47, 49, 46, 49, 32, 50, 48, 48, 32, 79, 75, 13, 10, 13, 10]

/-- Whether an event is an operation on the raw connection `c`. -/
def Event.onConn (c : Conn) : Event → Bool
  | .connWrite d _ => d = c
  | .connRead d => d = c
  | .connClose d => d = c
  | _ => false

/-- Whether an event is a write on some raw connection. -/
def Event.isConnWrite : Event → Bool
  | .connWrite _ _ => true
  | _ => false

/-- Whether an event is a call of `Issue`. -/
def Event.isIssue : Event → Bool
  | .issue _ _ _ _ => true
  | _ => false

/-- The TLS sessions an event works on. -/
def Event.sessions : Event → List TLSConn
  | .tlsServer t => [t]
  | .handshake t => [t]
  | .push t => [t]
  | .goCopy (.tls t) (.tls u) => [t, u]
  | .goCopy (.tls t) (.raw _) => [t]
  | .goCopy (.raw _) (.tls u) => [u]
  | _ => []

/-! ## The paths through `HandleRequest` -/

/-- The TLS session `HandleRequest` builds over `conn` with the certificate `cert`. -/
def sessionOf (conn : Conn) (cert : Certificate) : TLSConn :=
  { conn := conn,
    config := { Certificates := [cert], ClientAuth := .VerifyClientCertIfGiven } }

/-- The trace up to and including the call of `Issue`. -/
def traceIssue (f : StripRequestFilter) (req : Request) (conn : Conn) : List Event :=
  [.hijack, .connWrite conn fake200Bytes, .log (logLine req),
   .issue f.CA req.Host validity rsaBits]

/-- The trace up to and including the handshake. -/
def traceHandshake (f : StripRequestFilter) (req : Request) (conn : Conn)
    (cert : Certificate) : List Event :=
  traceIssue f req conn ++ [.tlsServer (sessionOf conn cert), .handshake (sessionOf conn cert)]

/-- The seven ways through `HandleRequest`, each with the answers of the
environment that select it and the run it produces. -/
inductive Path (w : World) (f : StripRequestFilter) (h : Handler) (rw : ResponseWriter)
    (req : Request) : Run Response → Prop
  | notHijacker (hrw : rw.isHijacker = false) :
      Path w f h rw req ⟨[], none, some "http.ResponseWriter does not implments Hijacker"⟩
  | hijackFailed (err : String) (hrw : rw.isHijacker = true) (hH : w.Hijack = .error err) :
      Path w f h rw req ⟨[.hijack], none, some ("http.ResponseWriter Hijack failed: " ++ err)⟩
  | issueFailed (conn : Conn) (err : String) (hrw : rw.isHijacker = true)
      (hH : w.Hijack = .ok conn)
      (hI : w.Issue f.CA req.Host validity rsaBits = .error err) :
      Path w f h rw req
        ⟨traceIssue f req conn, none, some ("tls.LoadX509KeyPair failed: " ++ err)⟩
  | handshakeFailed (conn : Conn) (cert : Certificate) (err : String)
      (hrw : rw.isHijacker = true) (hH : w.Hijack = .ok conn)
      (hI : w.Issue f.CA req.Host validity rsaBits = .ok cert)
      (hS : w.Handshake (sessionOf conn cert) = some err) :
      Path w f h rw req
        ⟨traceHandshake f req conn cert, none, some ("tlsConn.Handshake error: " ++ err)⟩
  | pushed (conn : Conn) (cert : Certificate)
      (hrw : rw.isHijacker = true) (hH : w.Hijack = .ok conn)
      (hI : w.Issue f.CA req.Host validity rsaBits = .ok cert)
      (hS : w.Handshake (sessionOf conn cert) = none)
      (hP : h.Listener.isPushListener = true) :
      Path w f h rw req
        ⟨traceHandshake f req conn cert ++ [.push (sessionOf conn cert)], none, none⟩
  | dialFailed (conn : Conn) (cert : Certificate) (err : String)
      (hrw : rw.isHijacker = true) (hH : w.Hijack = .ok conn)
      (hI : w.Issue f.CA req.Host validity rsaBits = .ok cert)
      (hS : w.Handshake (sessionOf conn cert) = none)
      (hP : h.Listener.isPushListener = false)
      (hD : w.Dial "tcp" h.Listener.Addr = .error err) :
      Path w f h rw req
        ⟨traceHandshake f req conn cert ++ [.dial "tcp" h.Listener.Addr], none,
         some ("net.Dial failed: " ++ err)⟩
  | relayed (conn : Conn) (cert : Certificate) (loConn : Conn)
      (hrw : rw.isHijacker = true) (hH : w.Hijack = .ok conn)
      (hI : w.Issue f.CA req.Host validity rsaBits = .ok cert)
      (hS : w.Handshake (sessionOf conn cert) = none)
      (hP : h.Listener.isPushListener = false)
      (hD : w.Dial "tcp" h.Listener.Addr = .ok loConn) :
      Path w f h rw req
        ⟨traceHandshake f req conn cert ++
          [.dial "tcp" h.Listener.Addr,
           .goCopy (.raw loConn) (.tls (sessionOf conn cert)),
           .goCopy (.tls (sessionOf conn cert)) (.raw loConn)], none, none⟩

/-- Whether an event is a call of `Push`. -/
def Event.isPush : Event → Bool
  | .push _ => true
  | _ => false

/-- Whether an event is a call of `net.Dial`. -/
def Event.isDial : Event → Bool
  | .dial _ _ => true
  | _ => false

/-- Whether an event starts a copy task. -/
def Event.isGoCopy : Event → Bool
  | .goCopy _ _ => true
  | _ => false

/-- The steps of the interception protocol. -/
inductive Step
  | hijack
  | write
  | issue
  | handshake
  | push
  | dial
  | copy
deriving DecidableEq, Repr

/-- The step an event belongs to.  Logging and the construction of the TLS
session value are not steps. -/
def Event.step : Event → Option Step
  | .hijack => some .hijack
  | .connWrite _ _ => some .write
  | .issue _ _ _ _ => some .issue
  | .handshake _ => some .handshake
  | .push _ => some .push
  | .dial _ _ => some .dial
  | .goCopy _ _ => some .copy
  | _ => none

/-- The steps of a trace, in order. -/
def steps (t : List Event) : List Step :=
  t.filterMap Event.step

/-- Whether an event is part of the re-injection. -/
def Event.isReinjection (e : Event) : Bool :=
  e.isPush || e.isDial || e.isGoCopy

/-! ## Sample inputs -/

/-- A filter with a certificate authority. -/
def sampleFilter : StripRequestFilter := { CA := some { id := 1 } }

/-- A `CONNECT` request for `bad.example`. -/
def sampleRequest : Request :=
  { Method := "CONNECT", Host := "bad.example", Proto := "HTTP/1.1",
    RemoteAddr := "10.0.0.1:5000" }

/-- A response writer that can be hijacked. -/
def sampleWriter : ResponseWriter := { isHijacker := true }

/-- A handler whose listener has no push capability. -/
def loopbackHandler : Handler :=
  { Listener := { isPushListener := false, Addr := "127.0.0.1:8087" } }

/-- A handler whose listener has the push capability. -/
def pushHandler : Handler :=
  { Listener := { isPushListener := true, Addr := "127.0.0.1:8087" } }

/-- An environment in which every call succeeds. -/
def worldOK : World :=
  { Hijack := .ok { id := 1 },
    Write := fun _ bytes => (bytes.length, none),
    Issue := fun _ _ _ _ => .ok { serial := 7 },
    Handshake := fun _ => none,
    Dial := fun _ _ => .ok { id := 2 } }

/-- An environment in which the certificate authority refuses the host. -/
def worldIssueFails : World :=
  { Hijack := .ok { id := 1 },
    Write := fun _ bytes => (bytes.length, none),
    Issue := fun _ _ _ _ => .error "bad host",
    Handshake := fun _ => none,
    Dial := fun _ _ => .ok { id := 2 } }

/-- An environment in which the write on the hijacked connection fails, and
everything else succeeds. -/
def worldWriteFails : World :=
  { Hijack := .ok { id := 1 },
    Write := fun _ _ => (0, some "broken pipe"),
    Issue := fun _ _ _ _ => .ok { serial := 7 },
    Handshake := fun _ => none,
    Dial := fun _ _ => .ok { id := 2 } }

/-- An environment in which the hijack fails. -/
def worldHijackFails : World :=
  { Hijack := .error "conn gone",
    Write := fun _ bytes => (bytes.length, none),
    Issue := fun _ _ _ _ => .ok { serial := 7 },
    Handshake := fun _ => none,
    Dial := fun _ _ => .ok { id := 2 } }

/-! ## Failure points -/

/-- The places at which `HandleRequest` returns an error. -/
inductive FailurePoint
  | hijackUnsupported
  | hijackFailed
  | issuanceFailed
  | handshakeFailed
  | dialFailed
deriving DecidableEq, Repr

/-- The failure point of a run: none when the run returned no error, and
otherwise the point named by the last step the run made. -/
def failedAt (r : Run Response) : Option FailurePoint :=
  if r.err = none then none
  else
    match (steps r.trace).getLast? with
    | none => some .hijackUnsupported
    | some .hijack => some .hijackFailed
    | some .issue => some .issuanceFailed
    | some .handshake => some .handshakeFailed
    | some .dial => some .dialFailed
    | some _ => none

/-- The fixed text with which the error of a failure point starts. -/
def errorHead : FailurePoint → String
  | .hijackUnsupported => "http.ResponseWriter does not implments Hijacker"
  | .hijackFailed => "http.ResponseWriter Hijack failed: "
  | .issuanceFailed => "tls.LoadX509KeyPair failed: "
  | .handshakeFailed => "tlsConn.Handshake error: "
  | .dialFailed => "net.Dial failed: "

/-- The error text of a failure point, given the text `e` of the underlying
error; the first failure point has no underlying error. -/
def errorText (p : FailurePoint) (e : String) : String :=
  errorHead p ++ (if p = .hijackUnsupported then "" else e)

/-! ## goagent/config.go: strings, maps and panics

A Go string is modelled as the list of its characters.  The code reads single
bytes of a string only to compare them with ASCII characters, and an ASCII
byte of UTF-8 text is a character of its own, so reading the byte at the first
or last position is reading the first or last character.

A function that can panic returns `Except Panic`. -/

/-- A Go string. -/
abbrev GoString := List Char

/-- The run-time panics of this file. -/
inductive Panic
  | indexOutOfRange
  | sliceBoundsOutOfRange
  | assignmentToNilMap
  | sectionNotExists (sect : GoString)
  | optionNotExists (sect : GoString) (option : GoString)
  | atoiFailed (value : GoString)
deriving DecidableEq, Repr

deriving instance DecidableEq for Except

/-- The index expression `s[i]` on a string. -/
def charAt (s : GoString) (i : Int) : Except Panic Char :=
  if 0 ≤ i then
    match s.get? i.toNat with
    | some c => .ok c
    | none => .error .indexOutOfRange
  else .error .indexOutOfRange

/-- The slice expression `s[lo:hi]` on a string. -/
def slice (s : GoString) (lo hi : Int) : Except Panic GoString :=
  if 0 ≤ lo ∧ lo ≤ hi ∧ hi ≤ (s.length : Int) then
    .ok ((s.drop lo.toNat).take (hi.toNat - lo.toNat))
  else .error .sliceBoundsOutOfRange

/-- The index expression `items[i]` on a slice of strings. -/
def item (items : List GoString) (i : Nat) : Except Panic GoString :=
  match items.get? i with
  | some s => .ok s
  | none => .error .indexOutOfRange

/-- The predicate `unicode.IsSpace`: the characters with the Unicode property
White_Space. -/
def IsSpace (c : Char) : Bool :=
  let n := c.toNat
  (0x09 ≤ n && n ≤ 0x0D) || n = 0x20 || n = 0x85 || n = 0xA0 || n = 0x1680 ||
    (0x2000 ≤ n && n ≤ 0x200A) || n = 0x2028 || n = 0x2029 || n = 0x202F ||
    n = 0x205F || n = 0x3000

/-- The function `strings.TrimSpace`. -/
def TrimSpace (s : GoString) : GoString :=
  ((s.dropWhile IsSpace).reverse.dropWhile IsSpace).reverse

/-- The function `strings.HasPrefix`. -/
def startsWith : GoString → GoString → Bool
  | _, [] => true
  | [], _ :: _ => false
  | c :: s, d :: p => c = d && startsWith s p

/-- The function `strings.Index`: the position of the first occurrence of
`sep` in `s`, or none where Go returns `-1`. -/
def Index : GoString → GoString → Option Nat
  | [], sep => if sep = [] then some 0 else none
  | c :: s, sep =>
    if startsWith (c :: s) sep then some 0 else (Index s sep).map (· + 1)

/-- The function `strings.Contains`. -/
def Contains (s substr : GoString) : Bool :=
  (Index s substr).isSome

/-- The loop of `strings.genSplit` for a non-empty separator: at most `k`
cuts, each at the first occurrence of `sep` in what is left. -/
def genSplit (sep : GoString) : Nat → GoString → List GoString
  | 0, s => [s]
  | k + 1, s =>
    match Index s sep with
    | none => [s]
    | some m => s.take m :: genSplit sep k (s.drop (m + sep.length))

/-- The function `strings.SplitN(s, sep, n)` for a non-empty separator and
`n ≥ 0`: `n` is lowered to `len(s)+1`, and `n-1` cuts are made at most. -/
def SplitN (s sep : GoString) (n : Nat) : List GoString :=
  if n = 0 then [] else genSplit sep (min n (s.length + 1) - 1) s

/-- The pieces of `s` between the characters that satisfy `p`: what
`strings.Split` returns for a separator of one character, and
`regexp.Split(s, -1)` for a class of characters. -/
def splitOn (p : Char → Bool) : GoString → List GoString
  | [] => [[]]
  | c :: s =>
    if p c then [] :: splitOn p s
    else
      match splitOn p s with
      | [] => [[c]]
      | x :: xs => (c :: x) :: xs

/-- The call `strings.Replace(s, "\r\n", "\n", -1)`. -/
def replaceCRLF : GoString → GoString
  | [] => []
  | [c] => [c]
  | c :: d :: t =>
    if c = '\r' ∧ d = '\n' then '\n' :: replaceCRLF t else c :: replaceCRLF (d :: t)

/-- The index expression `m[key]` of a map with string keys, with its `ok`. -/
def mapGet {V : Type} : List (GoString × V) → GoString → Option V
  | [], _ => none
  | (k, v) :: m, key => if k = key then some v else mapGet m key

/-- The assignment `m[key] = val` on a map with string keys. -/
def mapSet {V : Type} : List (GoString × V) → GoString → V → List (GoString × V)
  | [], key, val => [(key, val)]
  | (k, v) :: m, key, val => if k = key then (k, val) :: m else (k, v) :: mapSet m key val

/-- The keys of a map, in the order in which a `range` visits them.  Go leaves
the order open; here it is the order of the list. -/
def mapKeys {V : Type} (m : List (GoString × V)) : List GoString :=
  m.map Prod.fst

/-- The type `GoConfig`: a map from section names to maps from option names
to values. -/
abbrev GoConfig := List (GoString × List (GoString × GoString))

instance : DecidableEq GoConfig := inferInstance

/-! ## goagent/config.go: `ReadConfig` -/

/-- The separator of option and value. -/
def optionSep : GoString := [' ', '=']

/-- One pass of the line loop of `ReadConfig` on the state `(config, section)`. -/
def readLine (st : GoConfig × GoString) (raw : GoString) :
    Except Panic (GoConfig × GoString) :=
  let config := st.1
  let sect := st.2
  let line := TrimSpace raw
  if line = [] then .ok (config, sect)
  else do
    let c0 ← charAt line 0
    if c0 = ';' then .ok (config, sect)
    else do
      let c1 ← charAt line 0
      let isHeader ←
        (if c1 = '[' then do
          let cl ← charAt line ((line.length : Int) - 1)
          pure (decide (cl = ']'))
        else pure false)
      if isHeader = true then do
        let sect ← slice line 1 ((line.length : Int) - 1)
        pure (mapSet config sect [], sect)
      else if Contains line optionSep = true then do
        let items := SplitN line optionSep 2
        let config := if (mapGet config sect).isNone then mapSet config sect [] else config
        let key ← item items 0
        let val ← item items 1
        match mapGet config sect with
        | none => .error .assignmentToNilMap
        | some options =>
          pure (mapSet config sect (mapSet options (TrimSpace key) (TrimSpace val)), sect)
      else pure (config, sect)

/-- The line loop of `ReadConfig`. -/
def readLines : List GoString → GoConfig × GoString → Except Panic (GoConfig × GoString)
  | [], st => .ok st
  | raw :: rest, st =>
    match readLine st raw with
    | .error p => .error p
    | .ok st1 => readLines rest st1

/-- The function `ReadConfig`, on the result of `ioutil.ReadFile`: the content
of the file or an error text.  The result is the pair `(config, err)`. -/
def ReadConfig (file : Except String GoString) :
    Except Panic (Option GoConfig × Option String) :=
  match file with
  | .error err => .ok (none, some err)
  | .ok b =>
    let lines := splitOn (fun c => c = '\n') (replaceCRLF b)
    match readLines lines ([], "default".toList) with
    | .error p => .error p
    | .ok st => .ok (some st.1, none)

/-! ## goagent/config.go: the getters -/

/-- The method `GoConfig.GetOptions`. -/
def GetOptions (c : GoConfig) (sect : GoString) : Except Panic (List GoString) :=
  match mapGet c sect with
  | none => .error (.sectionNotExists sect)
  | some options => .ok (mapKeys options)

/-- The method `GoConfig.GetString`. -/
def GetString (c : GoConfig) (sect option : GoString) : Except Panic GoString :=
  match mapGet c sect with
  | none => .error (.sectionNotExists sect)
  | some options =>
    match mapGet options option with
    | none => .error (.optionNotExists sect option)
    | some value => .ok value

/-- The class of characters of the regular expression `[|,]`. -/
def isListSep (c : Char) : Bool :=
  c = '|' || c = ','

/-- The method `GoConfig.GetStrings`. -/
def GetStrings (c : GoConfig) (sect option : GoString) : Except Panic (List GoString) :=
  match GetString c sect option with
  | .error p => .error p
  | .ok value => .ok (splitOn isListSep value)

/-- The method `GoConfig.GetBool`.  The function `strings.ToLower` of the
standard library is the parameter `ToLower`. -/
def GetBool (ToLower : GoString → GoString) (c : GoConfig) (sect option : GoString) :
    Except Panic Bool :=
  match GetString c sect option with
  | .error p => .error p
  | .ok value =>
    let lowered := ToLower value
    if lowered = "1".toList then .ok true
    else if lowered = "true".toList then .ok true
    else if lowered = "t".toList then .ok true
    else .ok false

/-- The method `GoConfig.GetInt`.  The function `strconv.Atoi` of the standard
library is the parameter `Atoi`, none where it returns an error. -/
def GetInt (Atoi : GoString → Option Int) (c : GoConfig) (sect option : GoString) :
    Except Panic Int :=
  match GetString c sect option with
  | .error p => .error p
  | .ok value =>
    match Atoi value with
    | none => .error (.atoiFailed value)
    | some n => .ok n

/-- Lower-casing of the letters `A` to `Z`: what `strings.ToLower` does on
ASCII text. -/
def asciiToLower (s : GoString) : GoString :=
  s.map Char.toLower

/-! ## goagent/config.go: `ReadConfigFile` -/

/-- The type `CommonConfig`.  A nil slice or map is the empty list. -/
structure CommonConfig where
  ListenIp : GoString
  ListenPort : Int
  ListenUsername : GoString
  ListenPassword : GoString
  ListenVisible : Bool
  ListenDebuginfo : Bool
  GaeEnable : Bool
  GaeAppids : List GoString
  GaePassword : GoString
  GaePath : GoString
  GaeMode : GoString
  GaeIpv6 : Bool
  GaeWindow : Int
  GaeKeepalive : Bool
  GaeCachesock : Bool
  GaeHeadfirst : Bool
  GaeObfuscate : Bool
  GaeValidate : Bool
  GaeTransport : Bool
  GaeOptions : List GoString
  GaeRegions : List GoString
  GaeSslversion : GoString
  GaePagespeed : Bool
  PacEnable : Bool
  PacIp : GoString
  PacPort : Int
  PacFile : GoString
  PacGfwlist : GoString
  PacAdblock : GoString
  PacAdmode : Int
  PacExpired : Int
  PhpEnable : Bool
  PhpListen : GoString
  PhpPassword : GoString
  PhpCrlf : Bool
  PhpValidate : Bool
  PhpKeepalive : Bool
  PhpFetchserver : List GoString
  PhpHosts : List GoString
  VpsEnable : Bool
  VpsListen : GoString
  VpsFetchserver : List GoString
  ProxyEnable : Bool
  ProxyAutodetect : Bool
  ProxyHost : GoString
  ProxyPort : Int
  ProxyUsername : GoString
  ProxyPasswrod : GoString
  AutorangeHosts : List GoString
  AutorangeEndswith : List GoString
  AutorangeNoendswith : List GoString
  AutorangeMaxsize : Int
  AutorangeWaitsize : Int
  AutorangeBufsize : Int
  AutorangeThreads : Int
  FetchmaxLocal : Int
  FetchmaxServer : Int
  DnsEnable : Bool
  DnsListen : GoString
  DnsServers : List GoString
  UseragentEnable : Bool
  UseragentString : GoString
  LoveEnable : Bool
  LoveTip : List GoString
  IplistMap : List (GoString × List GoString)
  IplistFixed : List GoString
  HostMap : List (GoString × GoString)
  UrlRewriteMap : List (GoString × GoString)
  CrlfSites : List GoString
  NocrlfSites : List GoString
  ForcehttpsSites : List GoString
  NoforcehttpsSites : List (GoString × Unit)
  FakehttpsSites : List GoString
  NofakehttpsSites : List (GoString × Unit)
  WithGAESites : List GoString
  WithPHPSites : List GoString
  WithVPSSites : List GoString

/-- The value `CommonConfig{}`: every field has its zero value. -/
def zeroConfig : CommonConfig :=
  { ListenIp := [], ListenPort := 0, ListenUsername := [], ListenPassword := [],
    ListenVisible := false, ListenDebuginfo := false, GaeEnable := false, GaeAppids := [],
    GaePassword := [], GaePath := [], GaeMode := [], GaeIpv6 := false, GaeWindow := 0,
    GaeKeepalive := false, GaeCachesock := false, GaeHeadfirst := false, GaeObfuscate := false,
    GaeValidate := false, GaeTransport := false, GaeOptions := [], GaeRegions := [],
    GaeSslversion := [], GaePagespeed := false, PacEnable := false, PacIp := [], PacPort := 0,
    PacFile := [], PacGfwlist := [], PacAdblock := [], PacAdmode := 0, PacExpired := 0,
    PhpEnable := false, PhpListen := [], PhpPassword := [], PhpCrlf := false,
    PhpValidate := false, PhpKeepalive := false, PhpFetchserver := [], PhpHosts := [],
    VpsEnable := false, VpsListen := [], VpsFetchserver := [], ProxyEnable := false,
    ProxyAutodetect := false, ProxyHost := [], ProxyPort := 0, ProxyUsername := [],
    ProxyPasswrod := [], AutorangeHosts := [], AutorangeEndswith := [],
    AutorangeNoendswith := [], AutorangeMaxsize := 0, AutorangeWaitsize := 0,
    AutorangeBufsize := 0, AutorangeThreads := 0, FetchmaxLocal := 0, FetchmaxServer := 0,
    DnsEnable := false, DnsListen := [], DnsServers := [], UseragentEnable := false,
    UseragentString := [], LoveEnable := false, LoveTip := [], IplistMap := [],
    IplistFixed := [], HostMap := [], UrlRewriteMap := [], CrlfSites := [], NocrlfSites := [],
    ForcehttpsSites := [], NoforcehttpsSites := [], FakehttpsSites := [],
    NofakehttpsSites := [], WithGAESites := [], WithPHPSites := [], WithVPSSites := [] }

/-- Lines 306 to 318 of `ReadConfigFile`: the `make` calls, which leave the
tables empty. -/
def makeTables (cc : CommonConfig) : CommonConfig :=
  { cc with
    IplistMap := [], IplistFixed := [], HostMap := [], UrlRewriteMap := [],
    CrlfSites := [], NocrlfSites := [], ForcehttpsSites := [], NoforcehttpsSites := [],
    FakehttpsSites := [], NofakehttpsSites := [], WithGAESites := [], WithPHPSites := [],
    WithVPSSites := [] }

/-- The `switch rule` of the rule loop. -/
def applyRule (cc : CommonConfig) (pattern rule : GoString) : CommonConfig :=
  if rule = "crlf".toList then
    { cc with CrlfSites := cc.CrlfSites ++ [pattern] }
  else if rule = "nocrlf".toList then
    { cc with NocrlfSites := cc.NocrlfSites ++ [pattern] }
  else if rule = "forcehttps".toList then
    { cc with ForcehttpsSites := cc.ForcehttpsSites ++ [pattern] }
  else if rule = "noforcehttps".toList then
    { cc with NoforcehttpsSites := mapSet cc.NoforcehttpsSites pattern () }
  else if rule = "fakehttps".toList then
    { cc with FakehttpsSites := cc.FakehttpsSites ++ [pattern] }
  else if rule = "nofakehttps".toList then
    { cc with NofakehttpsSites := mapSet cc.NofakehttpsSites pattern () }
  else if rule = "withgae".toList then
    { cc with WithGAESites := cc.WithGAESites ++ [pattern] }
  else if rule = "withphp".toList then
    { cc with WithPHPSites := cc.WithPHPSites ++ [pattern] }
  else if rule = "withvps".toList then
    { cc with WithVPSSites := cc.WithVPSSites ++ [pattern] }
  else if rule = "direct".toList then
    { cc with HostMap := mapSet cc.HostMap pattern [] }
  else if (mapGet cc.IplistMap rule).isSome then
    { cc with HostMap := mapSet cc.HostMap pattern rule }
  else if Contains pattern ['\\'] = true then
    { cc with UrlRewriteMap := mapSet cc.UrlRewriteMap pattern rule }
  else cc

/-- The rule loop: while `rules` is not empty, take its first element off and
run the `switch` on it.  The state carries the number of passes made. -/
def ruleLoop (pattern : GoString) : List GoString → CommonConfig × Nat → CommonConfig × Nat
  | [], st => st
  | rule :: rules, st => ruleLoop pattern rules (applyRule st.1 pattern rule, st.2 + 1)

/-- The loop over the options of section `iplist`. -/
def iplistLoop (c : GoConfig) : List GoString → CommonConfig → Except Panic CommonConfig
  | [], cc => .ok cc
  | option :: rest, cc =>
    match GetStrings c "iplist".toList option with
    | .error p => .error p
    | .ok ips => iplistLoop c rest { cc with IplistMap := mapSet cc.IplistMap option ips }

/-- The loop over the options of section `profile`. -/
def profileLoop (c : GoConfig) : List GoString → CommonConfig → Except Panic CommonConfig
  | [], cc => .ok cc
  | option :: rest, cc =>
    match GetStrings c "profile".toList option with
    | .error p => .error p
    | .ok rules => profileLoop c rest (ruleLoop option rules (cc, 0)).1

/-- Lines 319 to 360 of `ReadConfigFile`: the loop over the options of section
`iplist` and then the loop over the options of section `profile`. -/
def fillTables (c : GoConfig) (cc : CommonConfig) : Except Panic CommonConfig :=
  match GetOptions c "iplist".toList with
  | .error p => .error p
  | .ok ipOptions =>
    match iplistLoop c ipOptions cc with
    | .error p => .error p
    | .ok cc =>
      match GetOptions c "profile".toList with
      | .error p => .error p
      | .ok patterns => profileLoop c patterns cc

/-- Lines 231 to 304 of `ReadConfigFile`: the getter calls that fill the scalar
fields of the value `CommonConfig{}`, in the order of the source.  The first
getter that panics ends the function.  `ToLower` is `strings.ToLower` and
`Atoi` is `strconv.Atoi`, none where it returns an error. -/
def readScalars (ToLower : GoString → GoString) (Atoi : GoString → Option Int)
    (c : GoConfig) : Except Panic CommonConfig := do
  let listenIp ← GetString c "listen".toList "ip".toList
  let listenPort ← GetInt Atoi c "listen".toList "port".toList
  let listenUsername ← GetString c "listen".toList "username".toList
  let listenPassword ← GetString c "listen".toList "password".toList
  let listenVisible ← GetBool ToLower c "listen".toList "visible".toList
  let listenDebuginfo ← GetBool ToLower c "listen".toList "debuginfo".toList
  let gaeEnable ← GetBool ToLower c "gae".toList "enable".toList
  let gaeAppids ← GetStrings c "gae".toList "appid".toList
  let gaePassword ← GetString c "gae".toList "password".toList
  let gaePath ← GetString c "gae".toList "path".toList
  let gaeMode ← GetString c "gae".toList "mode".toList
  let gaeIpv6 ← GetBool ToLower c "gae".toList "ipv6".toList
  let gaeSslversion ← GetString c "gae".toList "sslversion".toList
  let gaeWindow ← GetInt Atoi c "gae".toList "window".toList
  let gaeCachesock ← GetBool ToLower c "gae".toList "cachesock".toList
  let gaeHeadfirst ← GetBool ToLower c "gae".toList "headfirst".toList
  let gaeKeepalive ← GetBool ToLower c "gae".toList "keepalive".toList
  let gaeObfuscate ← GetBool ToLower c "gae".toList "obfuscate".toList
  let gaeValidate ← GetBool ToLower c "gae".toList "validate".toList
  let gaeTransport ← GetBool ToLower c "gae".toList "transport".toList
  let gaeOptions ← GetStrings c "gae".toList "options".toList
  let gaeRegions ← GetStrings c "gae".toList "regions".toList
  let pacEnable ← GetBool ToLower c "pac".toList "enable".toList
  let pacIp ← GetString c "pac".toList "ip".toList
  let pacPort ← GetInt Atoi c "pac".toList "port".toList
  let pacFile ← GetString c "pac".toList "file".toList
  let pacAdmode ← GetInt Atoi c "pac".toList "admode".toList
  let pacAdblock ← GetString c "pac".toList "adblock".toList
  let pacGfwlist ← GetString c "pac".toList "gfwlist".toList
  let pacExpired ← GetInt Atoi c "pac".toList "expired".toList
  let phpEnable ← GetBool ToLower c "php".toList "enable".toList
  let phpListen ← GetString c "php".toList "listen".toList
  let phpPassword ← GetString c "php".toList "password".toList
  let phpCrlf ← GetBool ToLower c "php".toList "crlf".toList
  let phpValidate ← GetBool ToLower c "php".toList "validate".toList
  let phpKeepalive ← GetBool ToLower c "php".toList "keepalive".toList
  let phpFetchserver ← GetStrings c "php".toList "fetchserver".toList
  let phpHosts ← GetStrings c "php".toList "hosts".toList
  let vpsEnable ← GetBool ToLower c "vps".toList "enable".toList
  let vpsListen ← GetString c "vps".toList "listen".toList
  let vpsFetchserver ← GetStrings c "vps".toList "fetchserver".toList
  let proxyEnable ← GetBool ToLower c "proxy".toList "enable".toList
  let proxyAutodetect ← GetBool ToLower c "proxy".toList "autodetect".toList
  let proxyHost ← GetString c "proxy".toList "host".toList
  let proxyPort ← GetInt Atoi c "proxy".toList "port".toList
  let proxyUsername ← GetString c "proxy".toList "username".toList
  let proxyPasswrod ← GetString c "proxy".toList "password".toList
  let autorangeHosts ← GetStrings c "autorange".toList "hosts".toList
  let autorangeEndswith ← GetStrings c "autorange".toList "endswith".toList
  let autorangeNoendswith ← GetStrings c "autorange".toList "noendswith".toList
  let autorangeThreads ← GetInt Atoi c "autorange".toList "threads".toList
  let autorangeMaxsize ← GetInt Atoi c "autorange".toList "maxsize".toList
  let autorangeWaitsize ← GetInt Atoi c "autorange".toList "waitsize".toList
  let autorangeBufsize ← GetInt Atoi c "autorange".toList "bufsize".toList
  let dnsEnable ← GetBool ToLower c "dns".toList "enable".toList
  let dnsListen ← GetString c "dns".toList "listen".toList
  let dnsServers ← GetStrings c "dns".toList "servers".toList
  let useragentEnable ← GetBool ToLower c "useragent".toList "enable".toList
  let useragentString ← GetString c "useragent".toList "string".toList
  let fetchmaxLocal ← GetInt Atoi c "fetchmax".toList "local".toList
  let fetchmaxServer ← GetInt Atoi c "fetchmax".toList "server".toList
  let loveEnable ← GetBool ToLower c "love".toList "enable".toList
  let loveTip ← GetStrings c "love".toList "tip".toList
  pure
    { zeroConfig with
      ListenIp := listenIp, ListenPort := listenPort, ListenUsername := listenUsername,
      ListenPassword := listenPassword, ListenVisible := listenVisible,
      ListenDebuginfo := listenDebuginfo, GaeEnable := gaeEnable, GaeAppids := gaeAppids,
      GaePassword := gaePassword, GaePath := gaePath, GaeMode := gaeMode, GaeIpv6 := gaeIpv6,
      GaeSslversion := gaeSslversion, GaeWindow := gaeWindow, GaeCachesock := gaeCachesock,
      GaeHeadfirst := gaeHeadfirst, GaeKeepalive := gaeKeepalive, GaeObfuscate := gaeObfuscate,
      GaeValidate := gaeValidate, GaeTransport := gaeTransport, GaeOptions := gaeOptions,
      GaeRegions := gaeRegions, PacEnable := pacEnable, PacIp := pacIp, PacPort := pacPort,
      PacFile := pacFile, PacAdmode := pacAdmode, PacAdblock := pacAdblock,
      PacGfwlist := pacGfwlist, PacExpired := pacExpired, PhpEnable := phpEnable,
      PhpListen := phpListen, PhpPassword := phpPassword, PhpCrlf := phpCrlf,
      PhpValidate := phpValidate, PhpKeepalive := phpKeepalive,
      PhpFetchserver := phpFetchserver, PhpHosts := phpHosts, VpsEnable := vpsEnable,
      VpsListen := vpsListen, VpsFetchserver := vpsFetchserver, ProxyEnable := proxyEnable,
      ProxyAutodetect := proxyAutodetect, ProxyHost := proxyHost, ProxyPort := proxyPort,
      ProxyUsername := proxyUsername, ProxyPasswrod := proxyPasswrod,
      AutorangeHosts := autorangeHosts, AutorangeEndswith := autorangeEndswith,
      AutorangeNoendswith := autorangeNoendswith, AutorangeThreads := autorangeThreads,
      AutorangeMaxsize := autorangeMaxsize, AutorangeWaitsize := autorangeWaitsize,
      AutorangeBufsize := autorangeBufsize, DnsEnable := dnsEnable, DnsListen := dnsListen,
      DnsServers := dnsServers, UseragentEnable := useragentEnable,
      UseragentString := useragentString, FetchmaxLocal := fetchmaxLocal,
      FetchmaxServer := fetchmaxServer, LoveEnable := loveEnable, LoveTip := loveTip }

/-- The function `ReadConfigFile`, on the result of `ioutil.ReadFile`.  The
result is the pair `(cc, err)`.  A nil `GoConfig` reads as the empty map. -/
def ReadConfigFile (ToLower : GoString → GoString) (Atoi : GoString → Option Int)
    (file : Except String GoString) : Except Panic (Option CommonConfig × Option String) :=
  match ReadConfig file with
  | .error p => .error p
  | .ok (_, some err) => .ok (none, some err)
  | .ok (config, none) =>
    let c := config.getD []
    match readScalars ToLower Atoi c with
    | .error p => .error p
    | .ok cc =>
      match fillTables c (makeTables cc) with
      | .error p => .error p
      | .ok cc => .ok (some cc, none)

/-- Whether a call returned without panic. -/
def succeeds {α : Type} : Except Panic α → Bool
  | .ok _ => true
  | .error _ => false

/-- The value of a run of decimal digits, none when a character is no digit. -/
def digitsValue : List Char → Nat → Option Nat
  | [], acc => some acc
  | ch :: rest, acc =>
    if '0' ≤ ch ∧ ch ≤ '9' then digitsValue rest (acc * 10 + (ch.toNat - '0'.toNat))
    else none

/-- What `strconv.Atoi` does where `int` has 64 bits: an optional sign, then at
least one decimal digit and nothing else, and a value in the range of `int`. -/
def atoiDecimal (s : GoString) : Option Int :=
  let parsed : Option Int :=
    match s with
    | [] => none
    | ch :: rest =>
      if ch = '-' then
        (if rest = [] then none else (digitsValue rest 0).map (fun n => -(n : Int)))
      else if ch = '+' then
        (if rest = [] then none else (digitsValue rest 0).map (fun n => (n : Int)))
      else (digitsValue (ch :: rest) 0).map (fun n => (n : Int))
  match parsed with
  | none => none
  | some n => if -(2 : Int) ^ 63 ≤ n ∧ n < (2 : Int) ^ 63 then some n else none

/-- A configuration file with every option that `ReadConfigFile` reads. -/
def sampleFile : GoString :=
  "[listen]\nip = x\nport = 1\nusername = x\npassword = x\nvisible = 1\ndebuginfo = 1\n[gae]\nenable = 1\nappid = a|b\npassword = x\npath = x\nmode = x\nipv6 = 1\nsslversion = x\nwindow = 1\ncachesock = 1\nheadfirst = 1\nkeepalive = 1\nobfuscate = 1\nvalidate = 1\ntransport = 1\noptions = a|b\nregions = a|b\n[pac]\nenable = 1\nip = x\nport = 1\nfile = x\nadmode = 1\nadblock = x\ngfwlist = x\nexpired = 1\n[php]\nenable = 1\nlisten = x\npassword = x\ncrlf = 1\nvalidate = 1\nkeepalive = 1\nfetchserver = a|b\nhosts = a|b\n[vps]\nenable = 1\nlisten = x\nfetchserver = a|b\n[proxy]\nenable = 1\nautodetect = 1\nhost = x\nport = 1\nusername = x\npassword = x\n[autorange]\nhosts = a|b\nendswith = a|b\nnoendswith = a|b\nthreads = 1\nmaxsize = 1\nwaitsize = 1\nbufsize = 1\n[dns]\nenable = 1\nlisten = x\nservers = a|b\n[useragent]\nenable = 1\nstring = x\n[fetchmax]\nlocal = 1\nserver = 1\n[love]\nenable = 1\ntip = a|b\n[iplist]\ngoogle_cn = 1.2.3.4|5.6.7.8\n[profile]\na.example = crlf,google_cn,direct\nb.example = direct,google_cn,other\nc\\.example = other".toList

/-- The config that `ReadConfig` makes of `sampleFile`. -/
def sampleFull : GoConfig :=
  [
   ("listen".toList,
    [("ip".toList, "x".toList),
     ("port".toList, "1".toList),
     ("username".toList, "x".toList),
     ("password".toList, "x".toList),
     ("visible".toList, "1".toList),
     ("debuginfo".toList, "1".toList)]),
   ("gae".toList,
    [("enable".toList, "1".toList),
     ("appid".toList, "a|b".toList),
     ("password".toList, "x".toList),
     ("path".toList, "x".toList),
     ("mode".toList, "x".toList),
     ("ipv6".toList, "1".toList),
     ("sslversion".toList, "x".toList),
     ("window".toList, "1".toList),
     ("cachesock".toList, "1".toList),
     ("headfirst".toList, "1".toList),
     ("keepalive".toList, "1".toList),
     ("obfuscate".toList, "1".toList),
     ("validate".toList, "1".toList),
     ("transport".toList, "1".toList),
     ("options".toList, "a|b".toList),
     ("regions".toList, "a|b".toList)]),
   ("pac".toList,
    [("enable".toList, "1".toList),
     ("ip".toList, "x".toList),
     ("port".toList, "1".toList),
     ("file".toList, "x".toList),
     ("admode".toList, "1".toList),
     ("adblock".toList, "x".toList),
     ("gfwlist".toList, "x".toList),
     ("expired".toList, "1".toList)]),
   ("php".toList,
    [("enable".toList, "1".toList),
     ("listen".toList, "x".toList),
     ("password".toList, "x".toList),
     ("crlf".toList, "1".toList),
     ("validate".toList, "1".toList),
     ("keepalive".toList, "1".toList),
     ("fetchserver".toList, "a|b".toList),
     ("hosts".toList, "a|b".toList)]),
   ("vps".toList,
    [("enable".toList, "1".toList),
     ("listen".toList, "x".toList),
     ("fetchserver".toList, "a|b".toList)]),
   ("proxy".toList,
    [("enable".toList, "1".toList),
     ("autodetect".toList, "1".toList),
     ("host".toList, "x".toList),
     ("port".toList, "1".toList),
     ("username".toList, "x".toList),
     ("password".toList, "x".toList)]),
   ("autorange".toList,
    [("hosts".toList, "a|b".toList),
     ("endswith".toList, "a|b".toList),
     ("noendswith".toList, "a|b".toList),
     ("threads".toList, "1".toList),
     ("maxsize".toList, "1".toList),
     ("waitsize".toList, "1".toList),
     ("bufsize".toList, "1".toList)]),
   ("dns".toList,
    [("enable".toList, "1".toList),
     ("listen".toList, "x".toList),
     ("servers".toList, "a|b".toList)]),
   ("useragent".toList,
    [("enable".toList, "1".toList),
     ("string".toList, "x".toList)]),
   ("fetchmax".toList,
    [("local".toList, "1".toList),
     ("server".toList, "1".toList)]),
   ("love".toList,
    [("enable".toList, "1".toList),
     ("tip".toList, "a|b".toList)]),
   ("iplist".toList,
    [("google_cn".toList, "1.2.3.4|5.6.7.8".toList)]),
   ("profile".toList,
    [("a.example".toList, "crlf,google_cn,direct".toList),
     ("b.example".toList, "direct,google_cn,other".toList),
     ("c\\.example".toList, "other".toList)])]

/-- A configuration file without the section `listen`. -/
def shortFile : GoString :=
  "[iplist]\ngoogle_cn = 1.2.3.4\n[profile]\na.example = direct".toList

/-- A config with an `iplist` and a `profile` section. -/
def sampleConfig : GoConfig :=
  [("iplist".toList, [("google_cn".toList, "1.2.3.4|5.6.7.8".toList)]),
   ("profile".toList,
    [("a.example".toList, "crlf,google_cn,direct".toList),
     ("b.example".toList, "direct,google_cn,other".toList),
     ("c\\.example".toList, "other".toList)])]

/-! ## Reading the line loop -/

/-- Whether a trimmed line is a section header: it starts with `[` and ends
with `]`. -/
def isHeader (line : GoString) : Bool :=
  line.head? = some '[' && line.getLast? = some ']'

/-- The text between the first and the last character of a line. -/
def headerName (line : GoString) : GoString :=
  (line.drop 1).take (line.length - 2)

/-- The effect of one line on the state `(config, section)`, written without
the bounds checks. -/
def stepLine (st : GoConfig × GoString) (raw : GoString) : GoConfig × GoString :=
  let line := TrimSpace raw
  if line = [] ∨ line.head? = some ';' then st
  else if isHeader line = true then (mapSet st.1 (headerName line) [], headerName line)
  else
    match Index line optionSep with
    | none => st
    | some m =>
      (mapSet st.1 st.2
        (mapSet ((mapGet st.1 st.2).getD []) (TrimSpace (line.take m))
          (TrimSpace (line.drop (m + 2)))), st.2)
/-- The value of an option of a section, when both exist. -/
def optionValue (c : GoConfig) (sect option : GoString) : Option GoString :=
  (mapGet c sect).bind (fun options => mapGet options option)

/-- The state in which the line loop of `ReadConfig` starts. -/
def initialState : GoConfig × GoString :=
  ([], "default".toList)

/-- A config with boolean options spelled in several ways. -/
def boolConfig : GoConfig :=
  [("listen".toList,
    [("visible".toList, "TRUE".toList), ("debuginfo".toList, "yes".toList),
     ("a".toList, "on".toList), ("b".toList, []), ("c".toList, "x true".toList),
     ("d".toList, "1".toList), ("e".toList, "T".toList), ("f".toList, "0".toList)])]

/-! ## Reading the rule loop -/

/-- The rules the `switch` names. -/
def ruleKeywords : List GoString :=
  ["crlf".toList, "nocrlf".toList, "forcehttps".toList, "noforcehttps".toList,
   "fakehttps".toList, "nofakehttps".toList, "withgae".toList, "withphp".toList,
   "withvps".toList, "direct".toList]

/-- Whether a rule gives the pattern an entry in `HostMap`: it is `direct`, or
it is no keyword and is a key of the map `iplist`. -/
def isHostRule {V : Type} (iplist : List (GoString × V)) (rule : GoString) : Bool :=
  decide (rule = "direct".toList) ||
    (!decide (rule ∈ ruleKeywords) && (mapGet iplist rule).isSome)

/-- The value a host rule puts in `HostMap`: empty for `direct`, else the rule. -/
def hostValue (rule : GoString) : GoString :=
  if rule = "direct".toList then [] else rule

/-- Whether a rule is no keyword and no key of the map `iplist`. -/
def isOtherRule {V : Type} (iplist : List (GoString × V)) (rule : GoString) : Bool :=
  !decide (rule ∈ ruleKeywords) && (mapGet iplist rule).isNone

/-! ## The match test -/

/-- C1: with the CA set, `Filter` returns a non-nil empty `FilterArgs` and a nil
error when the method is exactly `CONNECT`, and nil `FilterArgs` with a nil
error for every other method; so the request is claimed iff its method is
`CONNECT`. -/
theorem Filter_claims_iff_CONNECT (f : StripRequestFilter) (req : Request)
    (hCA : f.CA ≠ none) :
    (req.Method = "CONNECT" → (Filter f req).value = some {} ∧ (Filter f req).err = none) ∧
    (req.Method ≠ "CONNECT" → (Filter f req).value = none ∧ (Filter f req).err = none) ∧
    ((Filter f req).value ≠ none ↔ req.Method = "CONNECT") := by
  unfold Filter
  by_cases hm : req.Method = "CONNECT" <;> simp [hCA, hm]

/-- Witness of C1: a filter with a CA, on a `CONNECT` request. -/
theorem Filter_claims_iff_CONNECT_witness :
    (StripRequestFilter.mk (some ⟨1⟩)).CA ≠ none ∧
    (Filter ⟨some ⟨1⟩⟩ ⟨"CONNECT", "a.example:443", "HTTP/1.1", "10.0.0.1:5000"⟩).value
      = some {} :=
  ⟨by decide,
   ((Filter_claims_iff_CONNECT ⟨some ⟨1⟩⟩
      ⟨"CONNECT", "a.example:443", "HTTP/1.1", "10.0.0.1:5000"⟩ (by decide)).1 rfl).1⟩

/-- Counterexample to C2: with no CA configured, a `GET` request gets an error
from `Filter`, which aborts dispatch. -/
theorem Filter_nonCONNECT_noCA_errors :
    (Request.mk "GET" "a.example" "HTTP/1.1" "10.0.0.1:5000").Method ≠ "CONNECT" ∧
    (Filter ⟨none⟩ ⟨"GET", "a.example", "HTTP/1.1", "10.0.0.1:5000"⟩).err
      = some "StripRequestFilter.CA is nil" := by
  decide

/-- C2, amended: for every request whose method is not `CONNECT`, `Filter`
returns absent `FilterArgs` in every state of the filter, and it returns no
error exactly when the CA is configured. -/
theorem Filter_nonCONNECT (f : StripRequestFilter) (req : Request)
    (hm : req.Method ≠ "CONNECT") :
    (Filter f req).value = none ∧ ((Filter f req).err = none ↔ f.CA ≠ none) := by
  unfold Filter
  by_cases hCA : f.CA = none <;> simp [hCA, hm]

/-- Witness of the amended C2: a `GET` request and a filter with a CA. -/
theorem Filter_nonCONNECT_witness :
    (Request.mk "GET" "a.example" "HTTP/1.1" "10.0.0.1:5000").Method ≠ "CONNECT" ∧
    (Filter ⟨some ⟨1⟩⟩ ⟨"GET", "a.example", "HTTP/1.1", "10.0.0.1:5000"⟩).value = none :=
  ⟨by decide,
   (Filter_nonCONNECT ⟨some ⟨1⟩⟩ ⟨"GET", "a.example", "HTTP/1.1", "10.0.0.1:5000"⟩
      (by decide)).1⟩

/-- C3: if the CA is nil then, for every request, `Filter` returns nil
`FilterArgs` and a non-nil error, and makes no call on its environment. -/
theorem Filter_noCA_fails (f : StripRequestFilter) (req : Request) (hCA : f.CA = none) :
    (Filter f req).value = none ∧ (Filter f req).err ≠ none ∧
    (Filter f req).err = some "StripRequestFilter.CA is nil" ∧
    (Filter f req).trace = [] := by
  unfold Filter
  simp [hCA]

/-- Witness of C3: a filter without CA, on a `CONNECT` request. -/
theorem Filter_noCA_fails_witness :
    (StripRequestFilter.mk none).CA = none ∧
    (Filter ⟨none⟩ ⟨"CONNECT", "a.example:443", "HTTP/1.1", "10.0.0.1:5000"⟩).err ≠ none :=
  ⟨rfl,
   (Filter_noCA_fails ⟨none⟩ ⟨"CONNECT", "a.example:443", "HTTP/1.1", "10.0.0.1:5000"⟩
      rfl).2.1⟩

/-! ## The interception protocol -/

theorem bytesOf_fake200 : bytesOf fake200 = fake200Bytes := by decide

/-- Every run of `HandleRequest` takes one of the seven paths. -/
theorem HandleRequest_path (w : World) (f : StripRequestFilter) (h : Handler)
    (args : Option FilterArgs) (rw : ResponseWriter) (req : Request) :
    Path w f h rw req (HandleRequest w f h args rw req) := by
  unfold HandleRequest
  rw [bytesOf_fake200]
  cases hrw : rw.isHijacker with
  | false => simpa using Path.notHijacker hrw
  | true =>
    cases hH : w.Hijack with
    | error err => simpa using Path.hijackFailed err hrw hH
    | ok conn =>
      cases hI : w.Issue f.CA req.Host validity rsaBits with
      | error err => simpa [hI, traceIssue] using Path.issueFailed conn err hrw hH hI
      | ok cert =>
        cases hS : w.Handshake (sessionOf conn cert) with
        | some err =>
          have hS2 := hS
          simp only [sessionOf] at hS2
          simpa [hI, hS2, traceIssue, traceHandshake, sessionOf]
            using Path.handshakeFailed conn cert err hrw hH hI hS
        | none =>
          have hS2 := hS
          simp only [sessionOf] at hS2
          cases hP : h.Listener.isPushListener with
          | true =>
            simpa [hI, hS2, hP, traceIssue, traceHandshake, sessionOf]
              using Path.pushed conn cert hrw hH hI hS hP
          | false =>
            cases hD : w.Dial "tcp" h.Listener.Addr with
            | error err =>
              simpa [hI, hS2, hP, hD, traceIssue, traceHandshake, sessionOf]
                using Path.dialFailed conn cert err hrw hH hI hS hP hD
            | ok loConn =>
              simpa [hI, hS2, hP, hD, traceIssue, traceHandshake, sessionOf]
                using Path.relayed conn cert loConn hrw hH hI hS hP hD

/-- C4: when the hijack succeeds, the trace starts with the hijack followed by
one write, on the hijacked connection, of exactly the 19 bytes
`HTTP/1.1 200 OK` CR LF CR LF; no later event is an operation on the raw
connection or a write on any raw connection, and every TLS session worked on
afterwards is a session over the hijacked connection. -/
theorem HandleRequest_fake200 (w : World) (f : StripRequestFilter) (h : Handler)
    (args : Option FilterArgs) (rw : ResponseWriter) (req : Request) (conn : Conn)
    (hrw : rw.isHijacker = true) (hH : w.Hijack = .ok conn) :
    bytesOf fake200 = fake200Bytes ∧ fake200Bytes.length = 19 ∧
    ∃ rest, (HandleRequest w f h args rw req).trace
        = .hijack :: .connWrite conn (bytesOf fake200) :: rest ∧
      (∀ e ∈ rest, e.onConn conn = false ∧ e.isConnWrite = false) ∧
      (∀ e ∈ rest, ∀ t ∈ e.sessions, t.conn = conn) := by
  refine ⟨bytesOf_fake200, by decide, ?_⟩
  rw [bytesOf_fake200]
  have hp := HandleRequest_path w f h args rw req
  generalize HandleRequest w f h args rw req = r at hp ⊢
  cases hp <;>
    simp_all [traceIssue, traceHandshake, sessionOf, Event.onConn, Event.isConnWrite,
      Event.sessions]

/-- Witness of C4: the run in which every call succeeds. -/
theorem HandleRequest_fake200_witness :
    sampleWriter.isHijacker = true ∧ worldOK.Hijack = .ok { id := 1 } ∧
    fake200Bytes.length = 19 :=
  ⟨rfl, rfl,
   (HandleRequest_fake200 worldOK sampleFilter loopbackHandler none sampleWriter
      sampleRequest { id := 1 } rfl rfl).2.1⟩

/-- C5: when the hijack succeeds, `Issue` is called exactly once, on the CA of
the filter, with the host of this request, a validity of `3*365*24` hours and
a key size of 2048 bits.  The validity is 94,608,000 seconds and lies in the
range of a signed 64-bit count of nanoseconds.  The arguments are a function
of the filter and of this request only. -/
theorem HandleRequest_issue_once (w : World) (f : StripRequestFilter) (h : Handler)
    (args : Option FilterArgs) (rw : ResponseWriter) (req : Request) (conn : Conn)
    (hrw : rw.isHijacker = true) (hH : w.Hijack = .ok conn) :
    (HandleRequest w f h args rw req).trace.filter Event.isIssue
        = [.issue f.CA req.Host (3 * 365 * 24 * Hour) 2048] ∧
    3 * 365 * 24 * Hour = 94608000 * Second ∧ Second = 1000000000 ∧
    -(2 : Int) ^ 63 ≤ 3 * 365 * 24 * Hour ∧ 3 * 365 * 24 * Hour < (2 : Int) ^ 63 := by
  refine ⟨?_, by decide, by decide, by decide, by decide⟩
  have hp := HandleRequest_path w f h args rw req
  generalize HandleRequest w f h args rw req = r at hp ⊢
  cases hp <;>
    simp_all [traceIssue, traceHandshake, Event.isIssue, validity, rsaBits]

/-- Witness of C5: the run in which every call succeeds. -/
theorem HandleRequest_issue_once_witness :
    sampleWriter.isHijacker = true ∧ worldOK.Hijack = .ok { id := 1 } ∧
    (HandleRequest worldOK sampleFilter loopbackHandler none sampleWriter
        sampleRequest).trace.filter Event.isIssue
      = [.issue (some { id := 1 }) "bad.example" (3 * 365 * 24 * Hour) 2048] :=
  ⟨rfl, rfl,
   (HandleRequest_issue_once worldOK sampleFilter loopbackHandler none sampleWriter
      sampleRequest { id := 1 } rfl rfl).1⟩

/-- C6: every TLS session on which `HandleRequest` runs the handshake is
configured with exactly one certificate, the one `Issue` returned for the host
of this request, and with client authentication `VerifyClientCertIfGiven`. -/
theorem HandleRequest_session_config (w : World) (f : StripRequestFilter) (h : Handler)
    (args : Option FilterArgs) (rw : ResponseWriter) (req : Request) (t : TLSConn)
    (ht : Event.handshake t ∈ (HandleRequest w f h args rw req).trace) :
    ∃ cert, w.Issue f.CA req.Host (3 * 365 * 24 * Hour) 2048 = .ok cert ∧
      t.config.Certificates = [cert] ∧ t.config.Certificates.length = 1 ∧
      t.config.ClientAuth = .VerifyClientCertIfGiven := by
  have hp := HandleRequest_path w f h args rw req
  generalize HandleRequest w f h args rw req = r at hp ht
  cases hp <;>
    simp_all [traceIssue, traceHandshake, sessionOf, validity, rsaBits]

/-- Witness of C6: the run in which every call succeeds reaches the handshake. -/
theorem HandleRequest_session_config_witness :
    Event.handshake (sessionOf { id := 1 } { serial := 7 })
        ∈ (HandleRequest worldOK sampleFilter loopbackHandler none sampleWriter
            sampleRequest).trace ∧
    ∃ cert, worldOK.Issue sampleFilter.CA sampleRequest.Host (3 * 365 * 24 * Hour) 2048
        = .ok cert ∧
      (sessionOf { id := 1 } { serial := 7 }).config.Certificates = [cert] ∧
      (sessionOf { id := 1 } { serial := 7 }).config.Certificates.length = 1 ∧
      (sessionOf { id := 1 } { serial := 7 }).config.ClientAuth = .VerifyClientCertIfGiven :=
  have hm : Event.handshake (sessionOf { id := 1 } { serial := 7 })
      ∈ (HandleRequest worldOK sampleFilter loopbackHandler none sampleWriter
          sampleRequest).trace := by
    simp [HandleRequest, worldOK, sampleWriter, loopbackHandler, sessionOf]
  ⟨hm, HandleRequest_session_config worldOK sampleFilter loopbackHandler none sampleWriter
      sampleRequest _ hm⟩

/-- Counterexample to C7: the hijack succeeds, `Issue` fails for the host
`bad.example`, and `HandleRequest` returns its error with no close of the
hijacked connection in its trace. -/
theorem HandleRequest_issueFails_not_closed :
    sampleWriter.isHijacker = true ∧ worldIssueFails.Hijack = .ok { id := 1 } ∧
    worldIssueFails.Issue sampleFilter.CA sampleRequest.Host (3 * 365 * 24 * Hour) 2048
      = .error "bad host" ∧
    (HandleRequest worldIssueFails sampleFilter loopbackHandler none sampleWriter
        sampleRequest).err = some "tls.LoadX509KeyPair failed: bad host" ∧
    Event.connClose { id := 1 }
      ∉ (HandleRequest worldIssueFails sampleFilter loopbackHandler none sampleWriter
          sampleRequest).trace := by
  refine ⟨rfl, rfl, rfl, ?_, ?_⟩
  · simp [HandleRequest, worldIssueFails, sampleWriter]
  · simp [HandleRequest, worldIssueFails, sampleWriter]

/-- C7, amended: when the hijack succeeded and a later step fails (the
issuance, the handshake, or the loopback dial), `HandleRequest` returns a nil
response and a non-nil error, and its trace holds no close of any connection:
the hijacked connection is handed back unclosed. -/
theorem HandleRequest_failure_no_close (w : World) (f : StripRequestFilter) (h : Handler)
    (args : Option FilterArgs) (rw : ResponseWriter) (req : Request) (conn : Conn)
    (hrw : rw.isHijacker = true) (hH : w.Hijack = .ok conn)
    (hfail :
      (∃ e, w.Issue f.CA req.Host (3 * 365 * 24 * Hour) 2048 = .error e) ∨
      (∃ t e, Event.handshake t ∈ (HandleRequest w f h args rw req).trace ∧
        w.Handshake t = some e) ∨
      (∃ e, Event.dial "tcp" h.Listener.Addr ∈ (HandleRequest w f h args rw req).trace ∧
        w.Dial "tcp" h.Listener.Addr = .error e)) :
    (HandleRequest w f h args rw req).value = none ∧
    (HandleRequest w f h args rw req).err ≠ none ∧
    ∀ c, Event.connClose c ∉ (HandleRequest w f h args rw req).trace := by
  have hp := HandleRequest_path w f h args rw req
  generalize HandleRequest w f h args rw req = r at hp hfail ⊢
  cases hp <;>
    simp_all [traceIssue, traceHandshake, sessionOf, validity, rsaBits]

/-- Witness of the amended C7: the run in which `Issue` fails. -/
theorem HandleRequest_failure_no_close_witness :
    sampleWriter.isHijacker = true ∧ worldIssueFails.Hijack = .ok { id := 1 } ∧
    (HandleRequest worldIssueFails sampleFilter loopbackHandler none sampleWriter
        sampleRequest).err ≠ none :=
  ⟨rfl, rfl,
   (HandleRequest_failure_no_close worldIssueFails sampleFilter loopbackHandler none
      sampleWriter sampleRequest { id := 1 } rfl rfl (Or.inl ⟨"bad host", rfl⟩)).2.1⟩

/-- Counterexample to C8: the write of the fake acceptance fails, and
`HandleRequest` still calls `Issue` and runs the handshake, and closes
nothing. -/
theorem HandleRequest_writeFails_proceeds :
    sampleWriter.isHijacker = true ∧ worldWriteFails.Hijack = .ok { id := 1 } ∧
    (worldWriteFails.Write { id := 1 } (bytesOf fake200)).2 = some "broken pipe" ∧
    Event.issue sampleFilter.CA "bad.example" (3 * 365 * 24 * Hour) 2048
      ∈ (HandleRequest worldWriteFails sampleFilter loopbackHandler none sampleWriter
          sampleRequest).trace ∧
    Event.handshake (sessionOf { id := 1 } { serial := 7 })
      ∈ (HandleRequest worldWriteFails sampleFilter loopbackHandler none sampleWriter
          sampleRequest).trace ∧
    Event.connClose { id := 1 }
      ∉ (HandleRequest worldWriteFails sampleFilter loopbackHandler none sampleWriter
          sampleRequest).trace := by
  refine ⟨rfl, rfl, rfl, ?_, ?_, ?_⟩ <;>
    simp [HandleRequest, worldWriteFails, sampleWriter, sampleRequest, loopbackHandler,
      sessionOf, validity, rsaBits]

/-- C8, amended: the result of the write of the fake acceptance is discarded.
When the hijack succeeds and the write fails, the run is the same as with an
environment that differs only in that the write succeeds: `Issue` is still
called exactly once, and no connection is closed. -/
theorem HandleRequest_write_result_discarded (w : World) (f : StripRequestFilter)
    (h : Handler) (args : Option FilterArgs) (rw : ResponseWriter) (req : Request)
    (conn : Conn) (hrw : rw.isHijacker = true) (hH : w.Hijack = .ok conn)
    (_hW : (w.Write conn (bytesOf fake200)).2 ≠ none) :
    HandleRequest w f h args rw req
      = HandleRequest { w with Write := fun _ bytes => (bytes.length, none) } f h args rw req ∧
    (HandleRequest w f h args rw req).trace.filter Event.isIssue
      = [.issue f.CA req.Host (3 * 365 * 24 * Hour) 2048] ∧
    ∀ c, Event.connClose c ∉ (HandleRequest w f h args rw req).trace := by
  refine ⟨rfl, ?_, ?_⟩
  · have hp := HandleRequest_path w f h args rw req
    generalize HandleRequest w f h args rw req = r at hp ⊢
    cases hp <;>
      simp_all [traceIssue, traceHandshake, Event.isIssue, validity, rsaBits]
  · have hp := HandleRequest_path w f h args rw req
    generalize HandleRequest w f h args rw req = r at hp ⊢
    cases hp <;> simp_all [traceIssue, traceHandshake]

/-- Witness of the amended C8: the run in which the write fails. -/
theorem HandleRequest_write_result_discarded_witness :
    sampleWriter.isHijacker = true ∧ worldWriteFails.Hijack = .ok { id := 1 } ∧
    (worldWriteFails.Write { id := 1 } (bytesOf fake200)).2 ≠ none ∧
    (HandleRequest worldWriteFails sampleFilter loopbackHandler none sampleWriter
        sampleRequest).trace.filter Event.isIssue
      = [.issue sampleFilter.CA sampleRequest.Host (3 * 365 * 24 * Hour) 2048] :=
  ⟨rfl, rfl, by decide,
   (HandleRequest_write_result_discarded worldWriteFails sampleFilter loopbackHandler none
      sampleWriter sampleRequest { id := 1 } rfl rfl (by decide)).2.1⟩

/-- C9: in every run the steps occur in the order hijack, write, issuance,
handshake, re-injection, each of the first four and the push and the dial at
most once; a write occurs only if the hijack succeeded, a handshake only if
`Issue` returned a certificate without error, and a re-injection event (push,
dial or copy task) only if a handshake was run and returned without error. -/
theorem HandleRequest_order (w : World) (f : StripRequestFilter) (h : Handler)
    (args : Option FilterArgs) (rw : ResponseWriter) (req : Request) :
    (steps (HandleRequest w f h args rw req).trace
        <+: [.hijack, .write, .issue, .handshake, .push] ∨
      steps (HandleRequest w f h args rw req).trace
        <+: [.hijack, .write, .issue, .handshake, .dial, .copy, .copy]) ∧
    (∀ s ∈ [Step.hijack, .write, .issue, .handshake, .push, .dial],
      (steps (HandleRequest w f h args rw req).trace).count s ≤ 1) ∧
    (∀ e ∈ (HandleRequest w f h args rw req).trace, e.isConnWrite = true →
      rw.isHijacker = true ∧ ∃ conn, w.Hijack = .ok conn) ∧
    (∀ t, Event.handshake t ∈ (HandleRequest w f h args rw req).trace →
      ∃ cert, w.Issue f.CA req.Host (3 * 365 * 24 * Hour) 2048 = .ok cert) ∧
    (∀ e ∈ (HandleRequest w f h args rw req).trace, e.isReinjection = true →
      ∃ t, Event.handshake t ∈ (HandleRequest w f h args rw req).trace ∧
        w.Handshake t = none) := by
  have hp := HandleRequest_path w f h args rw req
  generalize HandleRequest w f h args rw req = r at hp ⊢
  cases hp <;>
    simp_all [traceIssue, traceHandshake, steps, Event.step, Event.isConnWrite,
      Event.isReinjection, Event.isPush, Event.isDial, Event.isGoCopy, validity, rsaBits]

/-- C10: when the handshake was run on the session `t` and succeeded, exactly
one re-injection strategy is used.  If the listener has the push capability,
`t` is pushed exactly once and there is no dial and no copy task.  Otherwise
the address of the listener is dialled exactly once on `tcp`, `Push` is not
called, and when the dial succeeds with `loConn` exactly two copy tasks are
started, first from `t` to `loConn` and then from `loConn` to `t`; when the
dial fails no copy task is started. -/
theorem HandleRequest_reinjection (w : World) (f : StripRequestFilter) (h : Handler)
    (args : Option FilterArgs) (rw : ResponseWriter) (req : Request) (t : TLSConn)
    (ht : Event.handshake t ∈ (HandleRequest w f h args rw req).trace)
    (hS : w.Handshake t = none) :
    (h.Listener.isPushListener = true →
      (HandleRequest w f h args rw req).trace.filter Event.isPush = [.push t] ∧
      (HandleRequest w f h args rw req).trace.filter Event.isDial = [] ∧
      (HandleRequest w f h args rw req).trace.filter Event.isGoCopy = []) ∧
    (h.Listener.isPushListener = false →
      (HandleRequest w f h args rw req).trace.filter Event.isPush = [] ∧
      (HandleRequest w f h args rw req).trace.filter Event.isDial
        = [.dial "tcp" h.Listener.Addr] ∧
      (∀ loConn, w.Dial "tcp" h.Listener.Addr = .ok loConn →
        (HandleRequest w f h args rw req).trace.filter Event.isGoCopy
          = [.goCopy (.raw loConn) (.tls t), .goCopy (.tls t) (.raw loConn)]) ∧
      (∀ e, w.Dial "tcp" h.Listener.Addr = .error e →
        (HandleRequest w f h args rw req).trace.filter Event.isGoCopy = [])) := by
  have hp := HandleRequest_path w f h args rw req
  generalize HandleRequest w f h args rw req = r at hp ht ⊢
  cases hp <;>
    simp_all [traceIssue, traceHandshake, Event.isPush, Event.isDial, Event.isGoCopy]

/-- Witness of C10: the run in which every call succeeds, on a listener
without the push capability. -/
theorem HandleRequest_reinjection_witness :
    Event.handshake (sessionOf { id := 1 } { serial := 7 })
        ∈ (HandleRequest worldOK sampleFilter loopbackHandler none sampleWriter
            sampleRequest).trace ∧
    worldOK.Handshake (sessionOf { id := 1 } { serial := 7 }) = none ∧
    (HandleRequest worldOK sampleFilter loopbackHandler none sampleWriter
        sampleRequest).trace.filter Event.isGoCopy
      = [.goCopy (.raw { id := 2 }) (.tls (sessionOf { id := 1 } { serial := 7 })),
         .goCopy (.tls (sessionOf { id := 1 } { serial := 7 })) (.raw { id := 2 })] :=
  have hm : Event.handshake (sessionOf { id := 1 } { serial := 7 })
      ∈ (HandleRequest worldOK sampleFilter loopbackHandler none sampleWriter
          sampleRequest).trace := by
    simp [HandleRequest, worldOK, sampleWriter, loopbackHandler, sessionOf]
  ⟨hm, rfl,
   ((HandleRequest_reinjection worldOK sampleFilter loopbackHandler none sampleWriter
      sampleRequest _ hm rfl).2 rfl).2.2.1 { id := 2 } rfl⟩

/-! ## Results and errors -/

/-- C11: in every run `HandleRequest` returns a nil response.  Its error is
non-nil iff one of its failure points failed: the response writer is not a
hijacker, or the hijack was called and returned an error, or `Issue` was called
and returned an error, or the handshake was run and returned an error, or the
dial was made and returned an error.  With a nil error the run ended on the
push or on the start of the second copy task. -/
theorem HandleRequest_result (w : World) (f : StripRequestFilter) (h : Handler)
    (args : Option FilterArgs) (rw : ResponseWriter) (req : Request) :
    (HandleRequest w f h args rw req).value = none ∧
    ((HandleRequest w f h args rw req).err ≠ none ↔
      rw.isHijacker = false ∨
      (Event.hijack ∈ (HandleRequest w f h args rw req).trace ∧
        ∃ e, w.Hijack = .error e) ∨
      (Event.issue f.CA req.Host (3 * 365 * 24 * Hour) 2048
          ∈ (HandleRequest w f h args rw req).trace ∧
        ∃ e, w.Issue f.CA req.Host (3 * 365 * 24 * Hour) 2048 = .error e) ∨
      (∃ t e, Event.handshake t ∈ (HandleRequest w f h args rw req).trace ∧
        w.Handshake t = some e) ∨
      (Event.dial "tcp" h.Listener.Addr ∈ (HandleRequest w f h args rw req).trace ∧
        ∃ e, w.Dial "tcp" h.Listener.Addr = .error e)) ∧
    ((HandleRequest w f h args rw req).err = none →
      (h.Listener.isPushListener = true ∧
        ∃ t, (HandleRequest w f h args rw req).trace.getLast? = some (.push t)) ∨
      (h.Listener.isPushListener = false ∧
        ∃ t loConn, (HandleRequest w f h args rw req).trace.getLast?
          = some (.goCopy (.tls t) (.raw loConn)))) := by
  have hp := HandleRequest_path w f h args rw req
  generalize HandleRequest w f h args rw req = r at hp ⊢
  cases hp <;>
    simp_all [traceIssue, traceHandshake, validity, rsaBits]

/-- Two texts that differ within their first `n` characters stay different
whatever is appended to them. -/
theorem append_ne_of_take (n : Nat) (a b e1 e2 : String)
    (ha : n ≤ a.data.length) (hb : n ≤ b.data.length)
    (hne : a.data.take n ≠ b.data.take n) : a ++ e1 ≠ b ++ e2 := by
  intro heq
  apply hne
  have h := congrArg (fun s => s.data.take n) heq
  simpa [String.data_append, List.take_append_of_le_length ha,
    List.take_append_of_le_length hb] using h

/-- The error texts of two different failure points differ, whatever the
underlying errors. -/
theorem errorText_ne (p1 p2 : FailurePoint) (e1 e2 : String) (hne : p1 ≠ p2) :
    errorText p1 e1 ≠ errorText p2 e2 := by
  unfold errorText
  cases p1 <;> cases p2 <;>
    first
    | exact absurd rfl hne
    | exact append_ne_of_take 1 _ _ _ _ (by decide) (by decide) (by decide)
    | exact append_ne_of_take 4 _ _ _ _ (by decide) (by decide) (by decide)
    | exact append_ne_of_take 21 _ _ _ _ (by decide) (by decide) (by decide)

/-- The failure point of a run fixes the form of its error. -/
theorem failedAt_errorText (w : World) (f : StripRequestFilter) (h : Handler)
    (args : Option FilterArgs) (rw : ResponseWriter) (req : Request) (p : FailurePoint)
    (hp : failedAt (HandleRequest w f h args rw req) = some p) :
    ∃ e, (HandleRequest w f h args rw req).err = some (errorText p e) := by
  have hpath := HandleRequest_path w f h args rw req
  generalize HandleRequest w f h args rw req = r at hpath hp ⊢
  cases hpath <;>
    simp_all [failedAt, steps, Event.step, traceIssue, traceHandshake, errorText, errorHead]
  all_goals subst hp; simp

/-- The failure point of a run names the call that failed. -/
theorem failedAt_cause (w : World) (f : StripRequestFilter) (h : Handler)
    (args : Option FilterArgs) (rw : ResponseWriter) (req : Request) (p : FailurePoint)
    (hp : failedAt (HandleRequest w f h args rw req) = some p) :
    (p = .hijackUnsupported → rw.isHijacker = false) ∧
    (p = .hijackFailed → ∃ e, w.Hijack = .error e) ∧
    (p = .issuanceFailed →
      ∃ e, w.Issue f.CA req.Host (3 * 365 * 24 * Hour) 2048 = .error e) ∧
    (p = .handshakeFailed →
      ∃ t e, Event.handshake t ∈ (HandleRequest w f h args rw req).trace ∧
        w.Handshake t = some e) ∧
    (p = .dialFailed → ∃ e, w.Dial "tcp" h.Listener.Addr = .error e) := by
  have hpath := HandleRequest_path w f h args rw req
  generalize HandleRequest w f h args rw req = r at hpath hp ⊢
  cases hpath <;>
    simp_all [failedAt, steps, Event.step, traceIssue, traceHandshake, validity, rsaBits]
  all_goals subst hp; simp

/-- C12: the errors of different failure points are distinct.  When two runs of
`HandleRequest` fail at the different failure points `p1` and `p2`, each error
is the text of its failure point followed by the text of the underlying error,
and the two returned errors are different strings; the texts of `p1` and `p2`
differ for every pair of underlying errors. -/
theorem HandleRequest_errors_distinct (w1 w2 : World) (f1 f2 : StripRequestFilter)
    (h1 h2 : Handler) (args1 args2 : Option FilterArgs) (rw1 rw2 : ResponseWriter)
    (req1 req2 : Request) (p1 p2 : FailurePoint)
    (hp1 : failedAt (HandleRequest w1 f1 h1 args1 rw1 req1) = some p1)
    (hp2 : failedAt (HandleRequest w2 f2 h2 args2 rw2 req2) = some p2)
    (hne : p1 ≠ p2) :
    (∃ e1 e2, (HandleRequest w1 f1 h1 args1 rw1 req1).err = some (errorText p1 e1) ∧
      (HandleRequest w2 f2 h2 args2 rw2 req2).err = some (errorText p2 e2)) ∧
    (HandleRequest w1 f1 h1 args1 rw1 req1).err
      ≠ (HandleRequest w2 f2 h2 args2 rw2 req2).err ∧
    ∀ e1 e2, errorText p1 e1 ≠ errorText p2 e2 := by
  obtain ⟨e1, he1⟩ := failedAt_errorText w1 f1 h1 args1 rw1 req1 p1 hp1
  obtain ⟨e2, he2⟩ := failedAt_errorText w2 f2 h2 args2 rw2 req2 p2 hp2
  refine ⟨⟨e1, e2, he1, he2⟩, ?_, fun a b => errorText_ne p1 p2 a b hne⟩
  rw [he1, he2]
  intro heq
  exact errorText_ne p1 p2 e1 e2 hne (Option.some.inj heq)

/-- Witness of C12: a run in which `Issue` fails and a run in which the hijack
fails. -/
theorem HandleRequest_errors_distinct_witness :
    failedAt (HandleRequest worldIssueFails sampleFilter loopbackHandler none sampleWriter
        sampleRequest) = some .issuanceFailed ∧
    failedAt (HandleRequest worldHijackFails sampleFilter loopbackHandler none sampleWriter
        sampleRequest) = some .hijackFailed ∧
    (HandleRequest worldIssueFails sampleFilter loopbackHandler none sampleWriter
        sampleRequest).err
      ≠ (HandleRequest worldHijackFails sampleFilter loopbackHandler none sampleWriter
          sampleRequest).err :=
  have h1 : failedAt (HandleRequest worldIssueFails sampleFilter loopbackHandler none
      sampleWriter sampleRequest) = some .issuanceFailed := by
    simp [HandleRequest, worldIssueFails, sampleWriter, failedAt, steps, Event.step]
  have h2 : failedAt (HandleRequest worldHijackFails sampleFilter loopbackHandler none
      sampleWriter sampleRequest) = some .hijackFailed := by
    simp [HandleRequest, worldHijackFails, sampleWriter, failedAt, steps, Event.step]
  ⟨h1, h2,
   (HandleRequest_errors_distinct worldIssueFails worldHijackFails sampleFilter sampleFilter
      loopbackHandler loopbackHandler none none sampleWriter sampleWriter sampleRequest
      sampleRequest .issuanceFailed .hijackFailed h1 h2 (by decide)).2.1⟩

/-! ## Maps and strings: auxiliary facts -/

theorem mapGet_mapSet {V : Type} (m : List (GoString × V)) (k k2 : GoString) (v : V) :
    mapGet (mapSet m k v) k2 = if k = k2 then some v else mapGet m k2 := by
  induction m with
  | nil => simp [mapSet, mapGet]
  | cons a m ih =>
    obtain ⟨a1, a2⟩ := a
    by_cases h1 : a1 = k
    · by_cases h2 : k = k2
      · simp [mapSet, mapGet, h1, h2]
      · simp [mapSet, mapGet, h1, h2]
    · by_cases h2 : k = k2
      · subst h2
        simp [mapSet, mapGet, h1, ih]
      · by_cases h3 : a1 = k2
        · subst h3
          simp [mapSet, mapGet, h1, h2]
        · simp [mapSet, mapGet, h1, h2, h3, ih]

theorem charAt_zero (c : Char) (s : GoString) : charAt (c :: s) 0 = .ok c := by
  simp [charAt]

theorem charAt_last (c : Char) (s : GoString) :
    ∃ l, (c :: s).getLast? = some l ∧
      charAt (c :: s) (((c :: s).length : Int) - 1) = .ok l := by
  refine ⟨(c :: s).getLast (List.cons_ne_nil c s),
    List.getLast?_eq_getLast _ (List.cons_ne_nil c s), ?_⟩
  have h0 : (0 : Int) ≤ ((c :: s).length : Int) - 1 := by
    simp only [List.length_cons]; omega
  have h1 : (((c :: s).length : Int) - 1).toNat = (c :: s).length - 1 := by omega
  simp only [charAt, h0, if_true, h1]
  rw [List.getLast_eq_getElem]
  have : (c :: s).get? ((c :: s).length - 1) = some ((c :: s)[(c :: s).length - 1]) := by
    simp [List.get?_eq_getElem?]
  rw [this]

theorem two_le_length_of_header (c : Char) (s : GoString) (hc : c = '[')
    (hl : (c :: s).getLast? = some ']') : 2 ≤ (c :: s).length := by
  cases s with
  | nil => subst hc; simp at hl
  | cons d t => simp

theorem slice_header (line : GoString) (h2 : 2 ≤ line.length) :
    slice line 1 ((line.length : Int) - 1) = .ok ((line.drop 1).take (line.length - 2)) := by
  have h : (0 : Int) ≤ 1 ∧ (1 : Int) ≤ (line.length : Int) - 1 ∧
      (line.length : Int) - 1 ≤ (line.length : Int) := by omega
  have h1 : ((line.length : Int) - 1).toNat - 1 = line.length - 2 := by omega
  simp only [slice, h, and_self, if_true, Int.toNat_one, h1]
theorem mapSet_mapSet {V : Type} (m : List (GoString × V)) (k : GoString) (v v2 : V) :
    mapSet (mapSet m k v) k v2 = mapSet m k v2 := by
  induction m with
  | nil => simp [mapSet]
  | cons a m ih =>
    obtain ⟨a1, a2⟩ := a
    by_cases h1 : a1 = k
    · simp [mapSet, h1]
    · simp [mapSet, h1, ih]

theorem SplitN_two (line sep : GoString) (m : Nat) (hne : line ≠ [])
    (hI : Index line sep = some m) :
    SplitN line sep 2 = [line.take m, line.drop (m + sep.length)] := by
  have hlen : 0 < line.length := List.length_pos.mpr hne
  have h1 : min 2 (line.length + 1) - 1 = 1 := by omega
  simp [SplitN, h1, genSplit, hI]

theorem assign_eq (config : GoConfig) (sect line : GoString) (hne : line ≠ []) :
    (if Contains line optionSep = true then do
        let items := SplitN line optionSep 2
        let config := if (mapGet config sect).isNone then mapSet config sect [] else config
        let key ← item items 0
        let val ← item items 1
        match mapGet config sect with
        | none => .error .assignmentToNilMap
        | some options =>
          pure (mapSet config sect (mapSet options (TrimSpace key) (TrimSpace val)), sect)
      else pure (config, sect) : Except Panic (GoConfig × GoString)) =
    Except.ok
      (match Index line optionSep with
      | none => (config, sect)
      | some m =>
        (mapSet config sect
          (mapSet ((mapGet config sect).getD []) (TrimSpace (line.take m))
            (TrimSpace (line.drop (m + 2)))), sect)) := by
  simp only [bind, Except.bind, pure, Except.pure]
  cases hI : Index line optionSep with
  | none => simp [Contains, hI]
  | some m =>
    have hsp := SplitN_two line optionSep m hne hI
    have hlen : optionSep.length = 2 := rfl
    rw [hlen] at hsp
    cases hg : mapGet config sect with
    | none => simp [Contains, hI, hsp, item, hg, mapGet_mapSet, mapSet_mapSet]
    | some o => simp [Contains, hI, hsp, item, hg]

theorem readLine_eq_stepLine (st : GoConfig × GoString) (raw : GoString) :
    readLine st raw = .ok (stepLine st raw) := by
  obtain ⟨config, sect⟩ := st
  unfold readLine stepLine
  simp only []
  cases hline : TrimSpace raw with
  | nil => simp
  | cons c s =>
    simp only [charAt_zero, List.head?_cons, bind, Except.bind, pure, Except.pure]
    by_cases hsemi : c = ';'
    · simp [hsemi]
    · obtain ⟨l, hl, hlast⟩ := charAt_last c s
      by_cases hopen : c = '['
      · subst hopen
        by_cases hclose : l = ']'
        · subst hclose
          have h2 := two_le_length_of_header '[' s rfl hl
          have hh : isHeader ('[' :: s) = true := by
            simp only [isHeader, List.head?_cons, hl]; decide
          have hsl := slice_header ('[' :: s) h2
          simp only [hsemi, hlast, hh, hsl, headerName]
          simp
        · have hh : isHeader ('[' :: s) = false := by
            simp only [isHeader, List.head?_cons, hl]
            simp [hclose]
          simp only [hsemi, hlast, hh, reduceCtorEq, if_false, false_or, Option.some.injEq,
            Bool.false_eq_true, decide_eq_false hclose, if_true, ite_self]
          have h := assign_eq config sect ('[' :: s) (List.cons_ne_nil _ _)
          simp only [bind, Except.bind, pure, Except.pure] at h
          exact h
      · have hh : isHeader (c :: s) = false := by
          simp [isHeader, hopen]
        simp only [hsemi, hopen, hh, reduceCtorEq, if_false, false_or, Option.some.injEq,
          Bool.false_eq_true, if_true, ite_self]
        have h := assign_eq config sect (c :: s) (List.cons_ne_nil _ _)
        simp only [bind, Except.bind, pure, Except.pure] at h
        exact h
theorem readLines_eq_foldl (ls : List GoString) (st : GoConfig × GoString) :
    readLines ls st = .ok (ls.foldl stepLine st) := by
  induction ls generalizing st with
  | nil => rfl
  | cons raw rest ih => simp [readLines, readLine_eq_stepLine, ih]

theorem Contains_SplitN (line : GoString) (hc : Contains line optionSep = true) :
    ∃ key val, SplitN line optionSep 2 = [key, val] := by
  cases hI : Index line optionSep with
  | none => simp [Contains, hI] at hc
  | some m =>
    have hne : line ≠ [] := by
      intro h
      subst h
      simp [Index, optionSep] at hI
    exact ⟨_, _, SplitN_two line optionSep m hne hI⟩

/-! ## `ReadConfig` -/

/-- C14: the line loop of `ReadConfig` has no index out of range.  On a
non-empty trimmed line the reads of `line[0]` and `line[len(line)-1]` succeed;
when they give `[` and `]` the line has at least two characters and the slice
`line[1:len(line)-1]` succeeds; when the line contains the separator the split
gives two items; every pass of the loop succeeds; and a file that was read
gives a config and a nil error, without panic. -/
theorem ReadConfig_no_panic (b : GoString) :
    (∀ line : GoString, line ≠ [] →
      (∃ c, charAt line 0 = .ok c) ∧ ∃ c, charAt line ((line.length : Int) - 1) = .ok c) ∧
    (∀ line : GoString, charAt line 0 = .ok '[' →
      charAt line ((line.length : Int) - 1) = .ok ']' →
      2 ≤ line.length ∧ ∃ s, slice line 1 ((line.length : Int) - 1) = .ok s) ∧
    (∀ line : GoString, Contains line optionSep = true →
      ∃ key val, SplitN line optionSep 2 = [key, val] ∧
        item (SplitN line optionSep 2) 0 = .ok key ∧
        item (SplitN line optionSep 2) 1 = .ok val) ∧
    (∀ st raw, ∃ st2, readLine st raw = .ok st2) ∧
    ∃ config, ReadConfig (.ok b) = .ok (some config, none) := by
  refine ⟨?_, ?_, ?_, ?_, ?_⟩
  · intro line hne
    cases line with
    | nil => exact absurd rfl hne
    | cons c s =>
      obtain ⟨l, _, hl⟩ := charAt_last c s
      exact ⟨⟨c, charAt_zero c s⟩, ⟨l, hl⟩⟩
  · intro line h0 hl
    cases line with
    | nil => simp [charAt] at h0
    | cons c s =>
      rw [charAt_zero] at h0
      obtain ⟨l, hl1, hl2⟩ := charAt_last c s
      rw [hl2] at hl
      have hc : c = '[' := by injection h0
      have hl3 : l = ']' := by injection hl
      subst hl3
      have h2 := two_le_length_of_header c s hc hl1
      exact ⟨h2, _, slice_header (c :: s) h2⟩
  · intro line hc
    obtain ⟨key, val, h⟩ := Contains_SplitN line hc
    exact ⟨key, val, h, by simp [h, item], by simp [h, item]⟩
  · intro st raw
    exact ⟨_, readLine_eq_stepLine st raw⟩
  · simp [ReadConfig, readLines_eq_foldl]
theorem startsWith_append (sep after : GoString) : startsWith (sep ++ after) sep = true := by
  induction sep with
  | nil => cases after <;> simp [startsWith]
  | cons c s ih => simp [startsWith, ih]

theorem Index_cons (c : Char) (s sep : GoString) :
    Index (c :: s) sep
      = if startsWith (c :: s) sep = true then some 0 else (Index s sep).map (· + 1) := by
  cases sep <;> rfl

theorem Index_first (sep before after : GoString)
    (hfirst : ∀ j, j < before.length →
      startsWith ((before ++ sep ++ after).drop j) sep = false) :
    Index (before ++ sep ++ after) sep = some before.length := by
  induction before with
  | nil =>
    have hs := startsWith_append sep after
    cases hsa : sep ++ after with
    | nil =>
      have h1 : sep = [] := (List.append_eq_nil.mp hsa).1
      have h2 : after = [] := (List.append_eq_nil.mp hsa).2
      simp [Index, h1, h2]
    | cons c s =>
      rw [hsa] at hs
      simp [Index, hsa, hs]
  | cons b bs ih =>
    have h0 := hfirst 0 (by simp)
    simp only [List.drop_zero, List.cons_append] at h0
    have hrest : ∀ j, j < bs.length → startsWith ((bs ++ sep ++ after).drop j) sep = false := by
      intro j hj
      have := hfirst (j + 1) (by simp; omega)
      simpa using this
    have ih2 := ih hrest
    simp only [List.cons_append]
    rw [Index_cons, h0, ih2]
    simp

/-- C15: a trimmed line that is not empty, does not start with `;`, is not a
section header and has its first ` =` between `before` and `after` makes the
current section map the trimmed `before` to the trimmed `after`, whatever
value the option had and whether or not `after` holds ` =` again; the other
options of the section, the other sections and the current section name stay
as they were.  A trimmed line that is not a header and does not contain ` =`
leaves the state unchanged. -/
theorem readLine_assigns (config : GoConfig) (sect raw before after : GoString)
    (hline : TrimSpace raw = before ++ optionSep ++ after)
    (hfirst : ∀ j, j < before.length →
      startsWith ((before ++ optionSep ++ after).drop j) optionSep = false)
    (hsemi : (TrimSpace raw).head? ≠ some ';')
    (hhead : isHeader (TrimSpace raw) = false) :
    (∃ config2, readLine (config, sect) raw = .ok (config2, sect) ∧
      optionValue config2 sect (TrimSpace before) = some (TrimSpace after) ∧
      (∀ option, option ≠ TrimSpace before →
        optionValue config2 sect option = optionValue config sect option) ∧
      (∀ other, other ≠ sect → mapGet config2 other = mapGet config other)) ∧
    (∀ raw2, isHeader (TrimSpace raw2) = false →
      Contains (TrimSpace raw2) optionSep = false →
      readLine (config, sect) raw2 = .ok (config, sect)) := by
  constructor
  · have hI := Index_first optionSep before after hfirst
    have hne : TrimSpace raw ≠ [] := by
      rw [hline]; simp [optionSep]
    have hdrop : (before ++ optionSep ++ after).drop (before.length + 2) = after := by
      simp [optionSep]
    have htake : (before ++ optionSep ++ after).take before.length = before := by
      simp
    refine ⟨mapSet config sect (mapSet ((mapGet config sect).getD []) (TrimSpace before)
      (TrimSpace after)), ?_, ?_, ?_, ?_⟩
    · rw [readLine_eq_stepLine]
      simp only [stepLine, hne, hsemi, hhead, false_or, if_false, Bool.false_eq_true]
      rw [hline, hI]
      simp only [htake, hdrop]
    · simp [optionValue, mapGet_mapSet, hdrop, htake]
    · intro option hopt
      simp only [optionValue, mapGet_mapSet, if_true, Option.bind, htake]
      cases hg : mapGet config sect with
      | none => simp [mapGet, Ne.symm hopt]
      | some o => simp [Ne.symm hopt]
    · intro other hother
      simp [mapGet_mapSet, Ne.symm hother]
  · intro raw2 hh hc
    rw [readLine_eq_stepLine]
    simp only [stepLine, hh, Bool.false_eq_true, if_false]
    have hI : Index (TrimSpace raw2) optionSep = none := by
      simpa [Contains] using hc
    simp [hI]
theorem stepLine_header (st : GoConfig × GoString) (hdr s : GoString)
    (hh : TrimSpace hdr = '[' :: s ++ [']']) :
    stepLine st hdr = (mapSet st.1 s [], s) := by
  have hlast : ('[' :: s ++ [']']).getLast? = some ']' := by
    rw [List.getLast?_append]
    simp
  have h1 : isHeader ('[' :: s ++ [']']) = true := by
    simp only [isHeader, hlast]
    simp
  have h2 : headerName ('[' :: s ++ [']']) = s := by
    simp [headerName]
  simp only [stepLine, hh, h1, h2]
  simp

/-- Two states with the same current section and the same content of section
`s` keep both after reading the same line. -/
theorem stepLine_agree (s raw : GoString) (st1 st2 : GoConfig × GoString)
    (hsect : st1.2 = st2.2) (hs : mapGet st1.1 s = mapGet st2.1 s) :
    (stepLine st1 raw).2 = (stepLine st2 raw).2 ∧
    mapGet (stepLine st1 raw).1 s = mapGet (stepLine st2 raw).1 s := by
  obtain ⟨c1, sect1⟩ := st1
  obtain ⟨c2, sect2⟩ := st2
  simp only at hsect hs
  subst hsect
  unfold stepLine
  simp only []
  split
  · exact ⟨rfl, hs⟩
  · split
    · refine ⟨rfl, ?_⟩
      simp only [mapGet_mapSet, hs]
    · split
      · exact ⟨rfl, hs⟩
      · refine ⟨rfl, ?_⟩
        simp only [mapGet_mapSet]
        by_cases h : sect1 = s
        · subst h
          simp [hs]
        · simp [h, hs]

theorem foldl_stepLine_agree (s : GoString) (ls : List GoString)
    (st1 st2 : GoConfig × GoString)
    (hsect : st1.2 = st2.2) (hs : mapGet st1.1 s = mapGet st2.1 s) :
    mapGet (ls.foldl stepLine st1).1 s = mapGet (ls.foldl stepLine st2).1 s := by
  induction ls generalizing st1 st2 with
  | nil => exact hs
  | cons raw rest ih =>
    have h := stepLine_agree s raw st1 st2 hsect hs
    exact ih _ _ h.1 h.2

/-- C16: a header line `[s]` replaces section `s` by an empty option map and
makes `s` the current section.  So what the line loop leaves in section `s`
does not depend on the lines before a header `[s]`: it is what the loop leaves
when it starts at that header.  In particular options given to `s` under an
earlier `[s]`, or to `default` before a `[default]` header, are not in the
result. -/
theorem readLines_header_resets (pre post : List GoString) (hdr s : GoString)
    (hh : TrimSpace hdr = '[' :: s ++ [']']) :
    (∀ config sect, readLine (config, sect) hdr = .ok (mapSet config s [], s) ∧
      mapGet (mapSet config s []) s = some []) ∧
    (∃ st1 st2, readLines (pre ++ hdr :: post) initialState = .ok st1 ∧
      readLines (hdr :: post) initialState = .ok st2 ∧
      mapGet st1.1 s = mapGet st2.1 s) ∧
    ReadConfig (.ok "[s]\na = 1\n[s]\nb = 2".toList)
      = .ok (some [("s".toList, [("b".toList, "2".toList)])], none) ∧
    ReadConfig (.ok "a = 1\n[default]\nb = 2".toList)
      = .ok (some [("default".toList, [("b".toList, "2".toList)])], none) := by
  refine ⟨?_, ?_, by decide, by decide⟩
  · intro config sect
    rw [readLine_eq_stepLine, stepLine_header _ hdr s hh]
    simp [mapGet_mapSet]
  · refine ⟨_, _, readLines_eq_foldl _ _, readLines_eq_foldl _ _, ?_⟩
    rw [List.foldl_append, List.foldl_cons, List.foldl_cons,
      stepLine_header _ hdr s hh, stepLine_header _ hdr s hh]
    apply foldl_stepLine_agree
    · rfl
    · simp [mapGet_mapSet]
/-! ## The getters -/

theorem splitOn_ne_nil (p : Char → Bool) (s : GoString) : splitOn p s ≠ [] := by
  cases s with
  | nil => simp [splitOn]
  | cons c s =>
    unfold splitOn
    split
    · simp
    · split <;> simp

theorem splitOn_length (p : Char → Bool) (s : GoString) :
    (splitOn p s).length = s.countP p + 1 := by
  induction s with
  | nil => simp [splitOn]
  | cons c s ih =>
    unfold splitOn
    by_cases hp : p c = true
    · simp [hp, ih]
    · cases hs : splitOn p s with
      | nil => exact absurd hs (splitOn_ne_nil p s)
      | cons x xs =>
        rw [hs] at ih
        simp [hp] at ih ⊢
        omega

theorem splitOn_no_sep (p : Char → Bool) (s : GoString) :
    ∀ x ∈ splitOn p s, ∀ ch ∈ x, p ch = false := by
  induction s with
  | nil => simp [splitOn]
  | cons c s ih =>
    unfold splitOn
    by_cases hp : p c = true
    · simp only [hp, if_true]
      intro x hx
      rcases List.mem_cons.mp hx with h | h
      · subst h; simp
      · exact ih x h
    · cases hs : splitOn p s with
      | nil => exact absurd hs (splitOn_ne_nil p s)
      | cons y ys =>
        rw [hs] at ih
        simp only [hp, if_false]
        intro x hx
        rcases List.mem_cons.mp hx with h | h
        · subst h
          intro ch hch
          rcases List.mem_cons.mp hch with h2 | h2
          · subst h2; simpa using hp
          · exact ih y (List.mem_cons_self _ _) ch h2
        · exact ih x (List.mem_cons_of_mem _ h)

theorem splitOn_join (p : Char → Bool) (s : GoString) :
    (splitOn p s).flatten = s.filter (fun ch => !p ch) := by
  induction s with
  | nil => simp [splitOn]
  | cons c s ih =>
    unfold splitOn
    by_cases hp : p c = true
    · simp [hp, ih]
    · cases hs : splitOn p s with
      | nil => exact absurd hs (splitOn_ne_nil p s)
      | cons y ys =>
        rw [hs] at ih
        simp [hp] at ih ⊢
        exact ih

theorem countP_isListSep (s : GoString) :
    s.countP isListSep = s.count '|' + s.count ',' := by
  induction s with
  | nil => simp
  | cons c s ih =>
    by_cases h1 : c = '|'
    · subst h1
      simp [List.countP_cons, List.count_cons, isListSep, ih]
      omega
    · by_cases h2 : c = ','
      · subst h2
        simp [List.countP_cons, List.count_cons, isListSep, ih]
        omega
      · simp [List.countP_cons, List.count_cons, isListSep, ih, h1, h2]

/-- C17: for an existing section and option with value `value`, `GetStrings`
returns, without panic, exactly `k+1` strings, where `k` is the number of `|`
and `,` in the value; none of them holds `|` or `,`; and their concatenation
is the value without these characters.  An empty value gives the list of one
empty string. -/
theorem GetStrings_pieces (c : GoConfig) (sect option value : GoString)
    (hv : GetString c sect option = .ok value) :
    ∃ l, GetStrings c sect option = .ok l ∧
      l.length = value.count '|' + value.count ',' + 1 ∧
      (∀ x ∈ l, '|' ∉ x ∧ ',' ∉ x) ∧
      l.flatten = value.filter (fun ch => ch ≠ '|' ∧ ch ≠ ',') ∧
      (value = [] → l = [[]]) := by
  refine ⟨splitOn isListSep value, by simp [GetStrings, hv], ?_, ?_, ?_, ?_⟩
  · rw [splitOn_length, countP_isListSep]
  · intro x hx
    have h := splitOn_no_sep isListSep value x hx
    constructor
    · intro hm
      have := h _ hm
      simp [isListSep] at this
    · intro hm
      have := h _ hm
      simp [isListSep] at this
  · rw [splitOn_join]
    apply List.filter_congr
    intro ch _
    simp [isListSep]
  · intro h
    subst h
    rfl

/-- Witness of C15: the line ` key = a =b ` under section `s`. -/
theorem readLine_assigns_witness :
    TrimSpace " key = a =b ".toList = "key".toList ++ optionSep ++ " a =b".toList ∧
    ∃ config2, readLine ([], "s".toList) " key = a =b ".toList = .ok (config2, "s".toList) ∧
      optionValue config2 "s".toList (TrimSpace "key".toList)
        = some (TrimSpace " a =b".toList) :=
  have h := readLine_assigns [] "s".toList " key = a =b ".toList "key".toList
    " a =b".toList (by decide) (by decide) (by decide) (by decide)
  ⟨by decide, h.1.choose, h.1.choose_spec.1, h.1.choose_spec.2.1⟩

/-- Witness of C16: the header ` [s] ` after one line and before one line. -/
theorem readLines_header_resets_witness :
    TrimSpace " [s] ".toList = '[' :: "s".toList ++ [']'] ∧
    ∃ st1 st2, readLines (["a = 1".toList] ++ " [s] ".toList :: ["b = 2".toList])
        initialState = .ok st1 ∧
      readLines (" [s] ".toList :: ["b = 2".toList]) initialState = .ok st2 ∧
      mapGet st1.1 "s".toList = mapGet st2.1 "s".toList :=
  ⟨by decide,
   (readLines_header_resets ["a = 1".toList] ["b = 2".toList] " [s] ".toList "s".toList
      (by decide)).2.1⟩

/-- Witness of C17: the option `google_cn` of section `iplist` of the sample
config. -/
theorem GetStrings_pieces_witness :
    GetString sampleConfig "iplist".toList "google_cn".toList = .ok "1.2.3.4|5.6.7.8".toList ∧
    ∃ l, GetStrings sampleConfig "iplist".toList "google_cn".toList = .ok l ∧
      l.length = "1.2.3.4|5.6.7.8".toList.count '|' + "1.2.3.4|5.6.7.8".toList.count ',' + 1 :=
  have h := GetStrings_pieces sampleConfig "iplist".toList "google_cn".toList
    "1.2.3.4|5.6.7.8".toList (by decide)
  ⟨by decide, h.choose, h.choose_spec.1, h.choose_spec.2.1⟩

/-- C18: for an existing section and option with value `value`, `GetBool`
returns without panic, and returns true iff the lower-cased value is exactly
`1`, `true` or `t`.  With the lower-casing of ASCII letters, `TRUE`, `1` and
`T` give true, and `yes`, `on`, the empty value, `x true` and `0` give
false. -/
theorem GetBool_true_iff (ToLower : GoString → GoString) (c : GoConfig)
    (sect option value : GoString) (hv : GetString c sect option = .ok value) :
    (∃ b, GetBool ToLower c sect option = .ok b ∧
      (b = true ↔ ToLower value = "1".toList ∨ ToLower value = "true".toList ∨
        ToLower value = "t".toList)) ∧
    GetBool asciiToLower boolConfig "listen".toList "visible".toList = .ok true ∧
    GetBool asciiToLower boolConfig "listen".toList "d".toList = .ok true ∧
    GetBool asciiToLower boolConfig "listen".toList "e".toList = .ok true ∧
    GetBool asciiToLower boolConfig "listen".toList "debuginfo".toList = .ok false ∧
    GetBool asciiToLower boolConfig "listen".toList "a".toList = .ok false ∧
    GetBool asciiToLower boolConfig "listen".toList "b".toList = .ok false ∧
    GetBool asciiToLower boolConfig "listen".toList "c".toList = .ok false ∧
    GetBool asciiToLower boolConfig "listen".toList "f".toList = .ok false := by
  refine ⟨?_, by decide, by decide, by decide, by decide, by decide, by decide, by decide,
    by decide⟩
  unfold GetBool
  simp only [hv]
  by_cases h1 : ToLower value = "1".toList
  · exact ⟨true, by simp [h1], by simp [h1]⟩
  · by_cases h2 : ToLower value = "true".toList
    · exact ⟨true, by simp [h2], by simp [h2]⟩
    · by_cases h3 : ToLower value = "t".toList
      · exact ⟨true, by simp [h3], by simp [h3]⟩
      · refine ⟨false, by rw [if_neg h1, if_neg h2, if_neg h3], ?_⟩
        simp only [h1, h2, h3, or_self]
        simp

/-- Witness of C18: the option `visible` of section `listen`, with value `TRUE`. -/
theorem GetBool_true_iff_witness :
    GetString boolConfig "listen".toList "visible".toList = .ok "TRUE".toList ∧
    ∃ b, GetBool asciiToLower boolConfig "listen".toList "visible".toList = .ok b ∧
      (b = true ↔ asciiToLower "TRUE".toList = "1".toList ∨
        asciiToLower "TRUE".toList = "true".toList ∨ asciiToLower "TRUE".toList = "t".toList) :=
  ⟨by decide,
   (GetBool_true_iff asciiToLower boolConfig "listen".toList "visible".toList "TRUE".toList
      (by decide)).1⟩

/-! ## The rule loop -/

theorem applyRule_keyword (cc : CommonConfig) (pattern rule : GoString)
    (hk : rule ∈ ruleKeywords) :
    (applyRule cc pattern rule).IplistMap = cc.IplistMap ∧
    (applyRule cc pattern rule).HostMap
      = (if rule = "direct".toList then mapSet cc.HostMap pattern [] else cc.HostMap) ∧
    (applyRule cc pattern rule).UrlRewriteMap = cc.UrlRewriteMap := by
  simp only [ruleKeywords, List.mem_cons, List.mem_singleton, List.not_mem_nil, or_false] at hk
  rcases hk with h | h | h | h | h | h | h | h | h | h <;> subst h <;>
    simp [applyRule]

theorem applyRule_other (cc : CommonConfig) (pattern rule : GoString)
    (hk : rule ∉ ruleKeywords) :
    applyRule cc pattern rule
      = if (mapGet cc.IplistMap rule).isSome = true then
          { cc with HostMap := mapSet cc.HostMap pattern rule }
        else if Contains pattern ['\\'] = true then
          { cc with UrlRewriteMap := mapSet cc.UrlRewriteMap pattern rule }
        else cc := by
  simp only [ruleKeywords, List.mem_cons, List.mem_singleton, List.not_mem_nil, or_false,
    not_or] at hk
  obtain ⟨h1, h2, h3, h4, h5, h6, h7, h8, h9, h10⟩ := hk
  unfold applyRule
  rw [if_neg h1, if_neg h2, if_neg h3, if_neg h4, if_neg h5, if_neg h6, if_neg h7,
    if_neg h8, if_neg h9, if_neg h10]

theorem applyRule_tables (cc : CommonConfig) (pattern rule : GoString) :
    (applyRule cc pattern rule).IplistMap = cc.IplistMap ∧
    (applyRule cc pattern rule).HostMap
      = (if isHostRule cc.IplistMap rule = true
          then mapSet cc.HostMap pattern (hostValue rule) else cc.HostMap) ∧
    (applyRule cc pattern rule).UrlRewriteMap
      = (if isOtherRule cc.IplistMap rule = true ∧ Contains pattern ['\\'] = true
          then mapSet cc.UrlRewriteMap pattern rule else cc.UrlRewriteMap) := by
  by_cases hk : rule ∈ ruleKeywords
  · obtain ⟨h1, h2, h3⟩ := applyRule_keyword cc pattern rule hk
    refine ⟨h1, ?_, ?_⟩
    · rw [h2]
      by_cases hd : rule = "direct".toList
      · simp [isHostRule, hostValue, hd]
      · have hd2 : ¬rule = ['d', 'i', 'r', 'e', 'c', 't'] := hd
        simp [isHostRule, hostValue, hd2, hk]
    · rw [h3]
      simp [isOtherRule, hk]
  · have hd : rule ≠ "direct".toList := by
      intro h
      apply hk
      rw [h]
      decide
    have hd2 : ¬rule = ['d', 'i', 'r', 'e', 'c', 't'] := hd
    rw [applyRule_other cc pattern rule hk]
    cases hi : (mapGet cc.IplistMap rule).isSome
    · have hn : (mapGet cc.IplistMap rule).isNone = true := by
        cases hm : mapGet cc.IplistMap rule <;> simp_all
      by_cases hc : Contains pattern ['\\'] = true
      · simp [isHostRule, isOtherRule, hostValue, hd2, hk, hi, hn, hc]
      · simp [isHostRule, isOtherRule, hostValue, hd2, hk, hi, hn, hc]
    · have hn : (mapGet cc.IplistMap rule).isNone = false := by
        cases hm : mapGet cc.IplistMap rule <;> simp_all
      simp [isHostRule, isOtherRule, hostValue, hd2, hk, hi, hn]
theorem ruleLoop_append (pattern : GoString) (l1 l2 : List GoString)
    (st : CommonConfig × Nat) :
    ruleLoop pattern (l1 ++ l2) st = ruleLoop pattern l2 (ruleLoop pattern l1 st) := by
  induction l1 generalizing st with
  | nil => rfl
  | cons a l ih => simp [ruleLoop, ih]

theorem getLast?_filter_append_singleton (p : GoString → Bool) (l : List GoString)
    (a : GoString) :
    ((l ++ [a]).filter p).getLast? = if p a = true then some a else (l.filter p).getLast? := by
  by_cases h : p a = true
  · simp [List.filter_append, h, List.getLast?_append]
  · simp [List.filter_append, h]

theorem ruleLoop_tables (pattern : GoString) (rules : List GoString) (cc : CommonConfig)
    (n : Nat) :
    (ruleLoop pattern rules (cc, n)).2 = n + rules.length ∧
    (ruleLoop pattern rules (cc, n)).1.IplistMap = cc.IplistMap ∧
    (∀ q, mapGet (ruleLoop pattern rules (cc, n)).1.HostMap q
      = if q = pattern then
          (((rules.filter (isHostRule cc.IplistMap)).getLast?).map hostValue).or
            (mapGet cc.HostMap pattern)
        else mapGet cc.HostMap q) ∧
    (∀ q, mapGet (ruleLoop pattern rules (cc, n)).1.UrlRewriteMap q
      = if q = pattern ∧ Contains pattern ['\\'] = true then
          ((rules.filter (isOtherRule cc.IplistMap)).getLast?).or
            (mapGet cc.UrlRewriteMap pattern)
        else mapGet cc.UrlRewriteMap q) := by
  induction rules using List.reverseRecOn with
  | nil =>
    refine ⟨rfl, rfl, ?_, ?_⟩
    · intro q
      by_cases hq : q = pattern
      · simp [ruleLoop, hq]
      · simp [ruleLoop, hq]
    · intro q
      by_cases hq : q = pattern ∧ Contains pattern ['\\'] = true
      · simp [ruleLoop, hq.1, hq.2]
      · simp only [ruleLoop, if_neg hq]
  | append_singleton l a ih =>
    obtain ⟨ih1, ih2, ih3, ih4⟩ := ih
    have hst : ruleLoop pattern (l ++ [a]) (cc, n)
        = (applyRule (ruleLoop pattern l (cc, n)).1 pattern a,
            (ruleLoop pattern l (cc, n)).2 + 1) := by
      rw [ruleLoop_append]
      rfl
    obtain ⟨a1, a2, a3⟩ := applyRule_tables (ruleLoop pattern l (cc, n)).1 pattern a
    rw [ih2] at a2 a3
    refine ⟨?_, ?_, ?_, ?_⟩
    · rw [hst]
      simp only [ih1, List.length_append, List.length_singleton]
      omega
    · rw [hst]
      simp only [a1, ih2]
    · intro q
      rw [hst]
      simp only [a2, getLast?_filter_append_singleton]
      by_cases hh : isHostRule cc.IplistMap a = true
      · by_cases hq : q = pattern
        · subst hq
          simp [hh, mapGet_mapSet]
        · have hq2 : ¬pattern = q := fun h => hq h.symm
          simp [hh, mapGet_mapSet, hq, hq2, ih3]
      · simp only [hh, if_false, Bool.false_eq_true]
        exact ih3 q
    · intro q
      rw [hst]
      simp only [a3, getLast?_filter_append_singleton]
      by_cases hc : Contains pattern ['\\'] = true
      · by_cases hh : isOtherRule cc.IplistMap a = true
        · by_cases hq : q = pattern
          · subst hq
            simp [hh, hc, mapGet_mapSet]
          · have hq2 : ¬pattern = q := fun h => hq h.symm
            simp [hh, hc, mapGet_mapSet, hq, hq2, ih4]
        · simp only [hh, false_and, if_false, Bool.false_eq_true]
          exact ih4 q
      · have hc2 : Contains pattern ['\\'] = false := by simpa using hc
        have := ih4 q
        simp only [hc2, Bool.false_eq_true, and_false, if_false] at this ⊢
        exact this
theorem mem_mapKeys {V : Type} (m : List (GoString × V)) (o : GoString) :
    o ∈ mapKeys m ↔ (mapGet m o).isSome = true := by
  induction m with
  | nil =>
    constructor
    · intro h
      cases h
    · intro h
      cases h
  | cons a m ih =>
    obtain ⟨k, v⟩ := a
    by_cases h : k = o
    · subst h
      constructor
      · intro _
        simp only [mapGet, if_true]
        rfl
      · intro _
        exact List.mem_cons_self _ _
    · have h2 : ¬o = k := fun e => h e.symm
      constructor
      · intro hm
        have hm2 : o ∈ mapKeys m := by
          rcases List.mem_cons.mp hm with e | e
          · exact absurd e h2
          · exact e
        simp only [mapGet, if_neg h]
        exact ih.mp hm2
      · intro hs
        simp only [mapGet, if_neg h] at hs
        exact List.mem_cons_of_mem _ (ih.mpr hs)

theorem GetStrings_of_mapGet (c : GoConfig) (sect option value : GoString)
    (options : List (GoString × GoString)) (hs : mapGet c sect = some options)
    (hv : mapGet options option = some value) :
    GetStrings c sect option = .ok (splitOn isListSep value) := by
  simp [GetStrings, GetString, hs, hv]

theorem iplistLoop_tables (c : GoConfig) (iplist : List (GoString × GoString))
    (hi : mapGet c "iplist".toList = some iplist) (opts : List GoString) (cc : CommonConfig)
    (hopts : ∀ o ∈ opts, (mapGet iplist o).isSome = true) :
    ∃ cc2, iplistLoop c opts cc = .ok cc2 ∧ cc2.HostMap = cc.HostMap ∧
      cc2.UrlRewriteMap = cc.UrlRewriteMap ∧
      ∀ r, (mapGet cc2.IplistMap r).isSome
        = ((mapGet cc.IplistMap r).isSome || decide (r ∈ opts)) := by
  induction opts generalizing cc with
  | nil => exact ⟨cc, rfl, rfl, rfl, by simp⟩
  | cons o rest ih =>
    have ho := hopts o (List.mem_cons_self _ _)
    obtain ⟨v, hv⟩ := Option.isSome_iff_exists.mp ho
    have hg := GetStrings_of_mapGet c "iplist".toList o v iplist hi hv
    obtain ⟨cc2, h1, h2, h3, h4⟩ :=
      ih { cc with IplistMap := mapSet cc.IplistMap o (splitOn isListSep v) }
        (fun x hx => hopts x (List.mem_cons_of_mem _ hx))
    refine ⟨cc2, ?_, h2, h3, ?_⟩
    · simp only [iplistLoop, hg]
      exact h1
    · intro r
      rw [h4 r]
      simp only [mapGet_mapSet]
      by_cases hr : o = r
      · subst hr
        simp
      · have hr2 : ¬r = o := fun e => hr e.symm
        simp [hr, hr2]

theorem profileLoop_tables (c : GoConfig) (profile : List (GoString × GoString))
    (hp : mapGet c "profile".toList = some profile) (pattern value : GoString)
    (hv : mapGet profile pattern = some value) (opts : List GoString) (cc : CommonConfig)
    (hopts : ∀ o ∈ opts, (mapGet profile o).isSome = true) :
    ∃ cc2, profileLoop c opts cc = .ok cc2 ∧ cc2.IplistMap = cc.IplistMap ∧
      mapGet cc2.HostMap pattern
        = (if pattern ∈ opts then
            ((((splitOn isListSep value).filter (isHostRule cc.IplistMap)).getLast?).map
              hostValue).or (mapGet cc.HostMap pattern)
          else mapGet cc.HostMap pattern) ∧
      mapGet cc2.UrlRewriteMap pattern
        = (if pattern ∈ opts ∧ Contains pattern ['\\'] = true then
            (((splitOn isListSep value).filter (isOtherRule cc.IplistMap)).getLast?).or
              (mapGet cc.UrlRewriteMap pattern)
          else mapGet cc.UrlRewriteMap pattern) := by
  induction opts generalizing cc with
  | nil => exact ⟨cc, rfl, rfl, by simp, by simp⟩
  | cons o rest ih =>
    have ho := hopts o (List.mem_cons_self _ _)
    obtain ⟨v, hov⟩ := Option.isSome_iff_exists.mp ho
    have hg := GetStrings_of_mapGet c "profile".toList o v profile hp hov
    obtain ⟨_, r2, r3, r4⟩ := ruleLoop_tables o (splitOn isListSep v) cc 0
    obtain ⟨cc2, h1, h2, h3, h4⟩ :=
      ih (ruleLoop o (splitOn isListSep v) (cc, 0)).1
        (fun x hx => hopts x (List.mem_cons_of_mem _ hx))
    rw [r2] at h2 h3 h4
    rw [r3 pattern] at h3
    rw [r4 pattern] at h4
    refine ⟨cc2, ?_, h2, ?_, ?_⟩
    · simp only [profileLoop, hg]
      exact h1
    · rw [h3]
      by_cases hpo : pattern = o
      · subst hpo
        have hvv : v = value := by
          rw [hov] at hv
          exact Option.some.inj hv
        subst hvv
        cases hF : (((splitOn isListSep v).filter (isHostRule cc.IplistMap)).getLast?).map
            hostValue <;> simp
      · simp [hpo]
    · rw [h4]
      by_cases hpo : pattern = o
      · subst hpo
        have hvv : v = value := by
          rw [hov] at hv
          exact Option.some.inj hv
        subst hvv
        by_cases hc : Contains pattern ['\\'] = true
        · cases hF : ((splitOn isListSep v).filter (isOtherRule cc.IplistMap)).getLast? <;>
            simp [hc]
        · simp [hc]
      · simp [hpo]

theorem isHostRule_congr {V W : Type} (m1 : List (GoString × V)) (m2 : List (GoString × W))
    (h : ∀ r, (mapGet m1 r).isSome = (mapGet m2 r).isSome) :
    isHostRule m1 = isHostRule m2 := by
  funext r
  simp only [isHostRule, h r]

theorem isOtherRule_congr {V W : Type} (m1 : List (GoString × V)) (m2 : List (GoString × W))
    (h : ∀ r, (mapGet m1 r).isSome = (mapGet m2 r).isSome) :
    isOtherRule m1 = isOtherRule m2 := by
  funext r
  have h2 : (mapGet m1 r).isNone = (mapGet m2 r).isNone := by
    have := h r
    cases h3 : mapGet m1 r <;> cases h4 : mapGet m2 r <;> simp_all
  simp only [isOtherRule, h2]

theorem getLast?_filter_ne_none (p : GoString → Bool) (l : List GoString) :
    (l.filter p).getLast? ≠ none ↔ ∃ r ∈ l, p r = true := by
  rw [Ne, List.getLast?_eq_none_iff, List.filter_eq_nil_iff]
  push_neg
  rfl

/-- When a getter of the scalar part panics, `ReadConfigFile` panics with it and
the loops are not reached. -/
theorem ReadConfigFile_scalars_panic (ToLower : GoString → GoString)
    (Atoi : GoString → Option Int) (b : GoString) (c : GoConfig) (p : Panic)
    (hfile : ReadConfig (.ok b) = .ok (some c, none))
    (hscalars : readScalars ToLower Atoi c = .error p) :
    ReadConfigFile ToLower Atoi (.ok b) = .error p := by
  simp only [ReadConfigFile, hfile, Option.getD, hscalars]

/-- On a file without the section `listen`, `ReadConfigFile` panics at its first
getter. -/
theorem ReadConfigFile_shortFile :
    ReadConfigFile asciiToLower atoiDecimal (.ok shortFile)
      = .error (.sectionNotExists "listen".toList) := by
  have hfile : ReadConfig (.ok shortFile)
      = .ok (some [("iplist".toList, [("google_cn".toList, "1.2.3.4".toList)]),
          ("profile".toList, [("a.example".toList, "direct".toList)])], none) := by
    decide
  exact ReadConfigFile_scalars_panic asciiToLower atoiDecimal shortFile _ _ hfile rfl

/-- C19: let the file be read into the config `c`, let the getter calls of the
scalar options all return, and let `pattern` be an option of section `profile`
with value `value`, in a config that also has the section `iplist`.
`GetStrings` gives the rules `splitOn isListSep value`, and the rule loop makes
exactly as many passes as there are rules.  `ReadConfigFile` returns a
`CommonConfig` and a nil error, without panic, and in it `HostMap` has for
`pattern` the value of the last rule that is `direct` or is no keyword and
names an option of `iplist` (empty for `direct`, else the rule), and no entry
when there is no such rule; `UrlRewriteMap` has for `pattern` the last rule
that is no keyword and names no option of `iplist` when `pattern` holds a
backslash, and no entry otherwise.  Such a rule leaves the tables unchanged
when `pattern` holds no backslash. -/
theorem ReadConfigFile_hostMap (ToLower : GoString → GoString)
    (Atoi : GoString → Option Int) (b : GoString) (c : GoConfig)
    (iplist profile : List (GoString × GoString)) (pattern value : GoString)
    (hfile : ReadConfig (.ok b) = .ok (some c, none))
    (hscalars : succeeds (readScalars ToLower Atoi c) = true)
    (hi : mapGet c "iplist".toList = some iplist)
    (hp : mapGet c "profile".toList = some profile)
    (hv : mapGet profile pattern = some value) :
    GetStrings c "profile".toList pattern = .ok (splitOn isListSep value) ∧
    (∀ cc, (ruleLoop pattern (splitOn isListSep value) (cc, 0)).2
      = (splitOn isListSep value).length) ∧
    (∃ cc, ReadConfigFile ToLower Atoi (.ok b) = .ok (some cc, none) ∧
      mapGet cc.HostMap pattern
        = (((splitOn isListSep value).filter (isHostRule iplist)).getLast?).map hostValue ∧
      (mapGet cc.HostMap pattern ≠ none ↔
        ∃ r ∈ splitOn isListSep value,
          r = "direct".toList ∨ (r ∉ ruleKeywords ∧ (mapGet iplist r).isSome = true)) ∧
      mapGet cc.UrlRewriteMap pattern
        = (if Contains pattern ['\\'] = true then
            ((splitOn isListSep value).filter (isOtherRule iplist)).getLast?
          else none)) ∧
    (∀ cc rule, rule ∉ ruleKeywords → mapGet cc.IplistMap rule = none →
      Contains pattern ['\\'] = false → applyRule cc pattern rule = cc) := by
  refine ⟨GetStrings_of_mapGet c _ pattern value profile hp hv, ?_, ?_, ?_⟩
  · intro cc
    rw [(ruleLoop_tables pattern (splitOn isListSep value) cc 0).1]
    omega
  · cases hsc : readScalars ToLower Atoi c with
    | error p =>
      rw [hsc] at hscalars
      exact absurd hscalars (by simp [succeeds])
    | ok cc0 =>
      obtain ⟨cc1, i1, i2, i3, i4⟩ :=
        iplistLoop_tables c iplist hi (mapKeys iplist) (makeTables cc0)
          (fun o ho => (mem_mapKeys iplist o).mp ho)
      have hsome : ∀ r, (mapGet cc1.IplistMap r).isSome = (mapGet iplist r).isSome := by
        intro r
        rw [i4 r]
        by_cases hr : r ∈ mapKeys iplist
        · simp [makeTables, mapGet, hr, (mem_mapKeys iplist r).mp hr]
        · have : (mapGet iplist r).isSome = false := by
            cases hx : (mapGet iplist r).isSome
            · rfl
            · exact absurd ((mem_mapKeys iplist r).mpr hx) hr
          simp [makeTables, mapGet, hr, this]
      obtain ⟨cc2, p1, _, p3, p4⟩ :=
        profileLoop_tables c profile hp pattern value hv (mapKeys profile) cc1
          (fun o ho => (mem_mapKeys profile o).mp ho)
      have hmem : pattern ∈ mapKeys profile :=
        (mem_mapKeys profile pattern).mpr (by simp [hv])
      have hhost : mapGet cc2.HostMap pattern
          = (((splitOn isListSep value).filter (isHostRule iplist)).getLast?).map
              hostValue := by
        rw [p3, if_pos hmem, i2, isHostRule_congr cc1.IplistMap iplist hsome]
        simp [makeTables, mapGet]
      refine ⟨cc2, ?_, hhost, ?_, ?_⟩
      · simp only [ReadConfigFile, hfile, Option.getD, hsc, fillTables, GetOptions, hi, hp,
          i1, p1]
      · rw [hhost]
        have h := getLast?_filter_ne_none (isHostRule iplist) (splitOn isListSep value)
        constructor
        · intro hne
          have hne2 :
              ((splitOn isListSep value).filter (isHostRule iplist)).getLast? ≠ none := by
            intro h0
            apply hne
            rw [h0]
            rfl
          obtain ⟨r, hr, hpr⟩ := h.mp hne2
          refine ⟨r, hr, ?_⟩
          simpa [isHostRule] using hpr
        · rintro ⟨r, hr, hpr⟩
          have hpr2 : isHostRule iplist r = true := by
            simpa [isHostRule] using hpr
          have hne2 := h.mpr ⟨r, hr, hpr2⟩
          intro h0
          apply hne2
          cases hx : ((splitOn isListSep value).filter (isHostRule iplist)).getLast? with
          | none => rfl
          | some y => rw [hx] at h0; simp at h0
      · rw [p4, i3, isOtherRule_congr cc1.IplistMap iplist hsome]
        by_cases hc : Contains pattern ['\\'] = true
        · simp [hmem, hc, makeTables, mapGet]
        · simp [hc, makeTables, mapGet]
  · intro cc rule hk hn hc
    rw [applyRule_other cc pattern rule hk]
    simp [hn, hc]

/-- Witness of C19: the file `sampleFile`, which has every option that is read,
and its pattern `b.example` with the rules `direct`, `google_cn`, `other`. -/
theorem ReadConfigFile_hostMap_witness :
    ReadConfig (.ok sampleFile) = .ok (some sampleFull, none) ∧
    succeeds (readScalars asciiToLower atoiDecimal sampleFull) = true ∧
    ∃ cc, ReadConfigFile asciiToLower atoiDecimal (.ok sampleFile) = .ok (some cc, none) ∧
      mapGet cc.HostMap "b.example".toList = some "google_cn".toList :=
  have hfile : ReadConfig (.ok sampleFile) = .ok (some sampleFull, none) := by decide
  have hscalars : succeeds (readScalars asciiToLower atoiDecimal sampleFull) = true := by
    decide
  have h := (ReadConfigFile_hostMap asciiToLower atoiDecimal sampleFile sampleFull
    [("google_cn".toList, "1.2.3.4|5.6.7.8".toList)]
    [("a.example".toList, "crlf,google_cn,direct".toList),
     ("b.example".toList, "direct,google_cn,other".toList),
     ("c\\.example".toList, "other".toList)]
    "b.example".toList "direct,google_cn,other".toList hfile hscalars (by decide)
    (by decide) (by decide)).2.2.1
  ⟨hfile, hscalars, h.choose, h.choose_spec.1, h.choose_spec.2.1.trans (by decide)⟩

end Goproxy
